import Mathlib

/-!
Verification of the survey response core of `torijune/survey_page`
(`backend/app/survey`): the statistics aggregator, the response validator,
the question-numbering scheme, the submit pipeline and the CSV export.

Python's dynamic `answer_value` payload (a scalar, a list of scalars, or a
row-keyed mapping used by Likert grids) is embedded as `Scalar` / `AnsVal`.
Numbers are modelled as `Int` (exact arithmetic; averages live in `Rat`).
Python truthiness of optional strings/ints is made explicit, and the fact
that Python's `bool` is a subtype of `int` (so `isinstance(True, (int,
float))` holds) is reflected by `Scalar.toNumeric`.
-/

/-- A scalar answer payload: a JSON string, an integer, or a boolean. -/
inductive Scalar where
  | str (s : String)
  | num (n : Int)
  | bool (b : Bool)
deriving DecidableEq, Repr

/-- The polymorphic `answer_value` payload of a `ResponseItem`: a scalar,
a sequence of scalars (multi-select), or a row-keyed mapping (Likert). -/
inductive AnsVal where
  | scalar (v : Scalar)
  | list (vs : List Scalar)
  | dict (kvs : List (String × Scalar))
deriving DecidableEq, Repr

/-- Python `str()` of a scalar: strings verbatim, integers in decimal,
booleans as `True`/`False`. -/
def pyStrScalar : Scalar → String
  | .str s => s
  | .num n => toString n
  | .bool b => if b then "True" else "False"

/-- Python `isinstance(v, (int, float))` together with numeric coercion:
`True` counts as the number 1 and `False` as 0 because `bool` is a
subclass of `int` in Python; strings are not numeric. -/
def Scalar.toNumeric : Scalar → Option Int
  | .num n => some n
  | .bool b => some (if b then 1 else 0)
  | .str _ => none

/-- Python truthiness of an optional string (`None` and `""` are falsy). -/
def truthyStr : Option String → Bool
  | none => false
  | some t => !(t == "")

/-- Python truthiness of an optional integer (`None` and `0` are falsy),
as used by the `rules.min_length and ...` checks. -/
def truthyInt : Option Int → Bool
  | none => false
  | some n => !(n == 0)

/-- `response_item.py`: one answer of one response to one question. -/
structure ResponseItem where
  question_id : Nat
  answer_value : Option AnsVal
  answer_text : Option String
deriving DecidableEq, Repr

/-- `response.py`: a response together with its fetched items. -/
structure Response where
  id : Nat
  survey_id : Nat
  user_info_hash : Option String
  submitted_at : Option Nat
  is_complete : Bool
  items : List ResponseItem
deriving DecidableEq, Repr

/-! ## Statistics aggregator (`response_repository_impl.get_response_statistics`) -/

/-- Per-question statistics accumulator (`question_stats[q_id]`). -/
structure QStats where
  response_count : Nat
  value_counts : List (String × Nat)
  text_responses : List String
  numeric_values : List Int
  average : Option Rat
deriving DecidableEq, Repr

/-- The `defaultdict` initial value of a per-question accumulator. -/
def QStats.init : QStats :=
  { response_count := 0, value_counts := [], text_responses := [],
    numeric_values := [], average := none }

/-- Increment a counter in an insertion-ordered frequency table
(`defaultdict(int)` indexed by string keys). -/
def bump : List (String × Nat) → String → List (String × Nat)
  | [], k => [(k, 1)]
  | (k', v) :: rest, k =>
      if k' = k then (k', v + 1) :: rest else (k', v) :: bump rest k

/-- Fold one `ResponseItem` into its question's accumulator
(the loop body of `get_response_statistics`, lines 219-240). -/
def processItem (st : QStats) (item : ResponseItem) : QStats :=
  let st := { st with response_count := st.response_count + 1 }
  let st :=
    match item.answer_value with
    | none => st
    | some (.list vs) =>
        { st with value_counts :=
            vs.foldl (fun m v => bump m (pyStrScalar v)) st.value_counts }
    | some (.dict kvs) =>
        kvs.foldl (fun s kv =>
          let s := { s with
            value_counts := bump s.value_counts (kv.1 ++ ":" ++ pyStrScalar kv.2) }
          match kv.2.toNumeric with
          | some n => { s with numeric_values := s.numeric_values ++ [n] }
          | none => s) st
    | some (.scalar v) =>
        match v.toNumeric with
        | some n =>
            { st with numeric_values := st.numeric_values ++ [n],
                      value_counts := bump st.value_counts (pyStrScalar v) }
        | none =>
            { st with value_counts := bump st.value_counts (pyStrScalar v) }
  match item.answer_text with
  | some t => if t ≠ "" then { st with text_responses := st.text_responses ++ [t] } else st
  | none => st

/-- Insertion-ordered update of the question-id-keyed statistics map. -/
def setStats : List (String × QStats) → String → QStats → List (String × QStats)
  | [], k, v => [(k, v)]
  | (k', v') :: rest, k, v =>
      if k' = k then (k, v) :: rest else (k', v') :: setStats rest k v

/-- `defaultdict` read of the statistics map. -/
def getStats (m : List (String × QStats)) (k : String) : QStats :=
  (m.lookup k).getD QStats.init

/-- Fold all items of all responses into the statistics map. -/
def foldResponses (responses : List Response) : List (String × QStats) :=
  responses.foldl (fun m r =>
    r.items.foldl (fun m item =>
      let k := toString item.question_id
      setStats m k (processItem (getStats m k) item)) m) []

/-- Sum of the numeric accumulator (Python `sum`). -/
def sumInt (l : List Int) : Int := l.foldl (· + ·) 0

/-- The final per-question pass: `average = sum / len` when the numeric
accumulator is non-empty (exact rational division in the model). -/
def finalizeStats (m : List (String × QStats)) : List (String × QStats) :=
  m.map fun kv =>
    (kv.1,
      if kv.2.numeric_values.isEmpty then kv.2
      else { kv.2 with
        average :=
          some ((sumInt kv.2.numeric_values : Rat) / (kv.2.numeric_values.length : Rat)) })

/-- The aggregator's result: `{total_responses, question_stats}`. -/
structure Stats where
  total_responses : Nat
  question_stats : List (String × QStats)
deriving DecidableEq, Repr

/-- `get_response_statistics` over the (already fetched, complete)
responses of a survey. -/
def get_response_statistics (responses : List Response) : Stats :=
  if responses.isEmpty then
    { total_responses := 0, question_stats := [] }
  else
    { total_responses := responses.length,
      question_stats := finalizeStats (foldResponses responses) }

/-! ## Domain entities (`survey.py`, `section.py`, `question.py`) -/

/-- `SurveyStatus` lifecycle enumeration. -/
inductive SurveyStatus where
  | draft
  | published
  | closed
deriving DecidableEq, Repr

/-- `ValidationRules` of a question (`question.py`). Numeric bounds are
modelled over `Int`. -/
structure ValidationRules where
  min_length : Option Int := none
  max_length : Option Int := none
  min_value : Option Int := none
  max_value : Option Int := none
  pattern : Option String := none
deriving DecidableEq, Repr

/-- `Question` entity (the fields the response core reads). -/
structure Question where
  id : Nat
  section_id : Option Nat := none
  title : String := ""
  required : Bool := false
  is_hidden : Bool := false
  validation_rules : Option ValidationRules := none
deriving DecidableEq, Repr

/-- `Section` entity (the fields the response core reads). -/
structure Section where
  id : Option Nat := none
  questions : List Question := []
deriving DecidableEq, Repr

/-- `Survey` entity (the fields the response core reads). -/
structure Survey where
  id : Nat
  status : SurveyStatus := .draft
  duplicate_prevention : Bool := false
  sections : List Section := []
deriving DecidableEq, Repr

/-- `Survey.can_accept_responses`: `status == published`. -/
def Survey.can_accept_responses (s : Survey) : Bool :=
  s.status = SurveyStatus.published

/-! ## Email pattern (`re.match(r"[^@]+@[^@]+\.[^@]+", text)`)

`re.match` anchors only at the start of the string: it succeeds as soon as
some PREFIX of the text matches the pattern.  The scanner below implements
exactly that prefix-match semantics for this fixed pattern. -/

/-- After `[^@]+` has consumed at least one character: look for a `.`
followed by one more non-`@` character, scanning only over non-`@`
characters (the remainder of the `[^@]+` before the dot). -/
def seekDot : List Char → Bool
  | [] => false
  | c :: rest =>
      if c = '@' then false
      else if c = '.' then
        (match rest with
         | d :: _ => if d = '@' then seekDot rest else true
         | [] => seekDot rest)
      else seekDot rest

/-- Match `[^@]+\.[^@]+` against a prefix of the characters after the `@`. -/
def tailMatch : List Char → Bool
  | [] => false
  | c :: rest => if c = '@' then false else seekDot rest

/-- Scan to the first `@` (the `[^@]+@` part already consumed one non-`@`
character) and then match the tail pattern after it. -/
def afterFirst : List Char → Bool
  | [] => false
  | c :: rest => if c = '@' then tailMatch rest else afterFirst rest

/-- `re.match(r"[^@]+@[^@]+\.[^@]+", s)` as a Boolean: some prefix of `s`
matches the pattern. -/
def reMatchEmail (s : String) : Bool :=
  match s.data with
  | [] => false
  | c :: rest => if c = '@' then false else afterFirst rest

/-! ## Response validator (`response_service._validate_response`) -/

/-- `ResponseItemRequest`: one submitted item. -/
structure ItemReq where
  question_id : Nat
  answer_value : Option AnsVal
  answer_text : Option String
deriving DecidableEq, Repr

/-- The validation/submission error taxonomy (each constructor is one
`ValueError` raise site; question-level errors carry the question title). -/
inductive VError where
  | responseNotFound
  | surveyNotFound
  | surveyNotAcceptingResponses
  | duplicateSubmission
  | requiredFieldMissing (question : String)
  | textMinLength (bound : Int) (question : String)
  | textMaxLength (bound : Int) (question : String)
  | patternMismatch (question : String)
  | numericMin (bound : Int) (question : String)
  | numericMax (bound : Int) (question : String)
deriving DecidableEq, Repr

/-- `item_map = {item.question_id: item}` lookup: a Python dict
comprehension keeps the LAST item for a duplicated key. -/
def itemMap (items : List ItemReq) (qid : Nat) : Option ItemReq :=
  (items.filter (fun it => it.question_id == qid)).getLast?

/-- The required-field block of `_validate_response` (lines 319-321):
fail when the question is required and the item is absent or has neither a
non-null `answer_value` nor a truthy (non-empty) `answer_text`. -/
def checkRequired (question : Question) (item : Option ItemReq) : Except VError Unit :=
  if question.required then
    match item with
    | none => .error (.requiredFieldMissing question.title)
    | some it =>
        if it.answer_value.isNone && !truthyStr it.answer_text then
          .error (.requiredFieldMissing question.title)
        else .ok ()
  else .ok ()

/-- The text-rule block (lines 327-337): length bounds under Python
truthiness (`rules.min_length and ...` skips both `None` and `0`), then
the email pattern check; the first violated check raises. -/
def checkTextRules (rules : ValidationRules) (question : Question) (t : String) :
    Except VError Unit :=
  if truthyInt rules.min_length && decide ((t.length : Int) < rules.min_length.getD 0) then
    .error (.textMinLength (rules.min_length.getD 0) question.title)
  else if truthyInt rules.max_length && decide ((t.length : Int) > rules.max_length.getD 0) then
    .error (.textMaxLength (rules.max_length.getD 0) question.title)
  else if rules.pattern == some "email" && !reMatchEmail t then
    .error (.patternMismatch question.title)
  else .ok ()

/-- The numeric-rule block (lines 339-343): `min_value`/`max_value` are
compared whenever they are not `None` (an identity check, not
truthiness). -/
def checkNumericRules (rules : ValidationRules) (question : Question) (n : Int) :
    Except VError Unit :=
  if rules.min_value.isSome && decide (n < rules.min_value.getD 0) then
    .error (.numericMin (rules.min_value.getD 0) question.title)
  else if rules.max_value.isSome && decide (n > rules.max_value.getD 0) then
    .error (.numericMax (rules.max_value.getD 0) question.title)
  else .ok ()

/-- The `if item and question.validation_rules:` block (lines 324-343):
text rules run only on a truthy `answer_text`; numeric rules run only on a
numeric `answer_value` (which, as in Python, includes booleans). -/
def checkRules (question : Question) (item : Option ItemReq) : Except VError Unit :=
  match item, question.validation_rules with
  | some it, some rules =>
      match (if truthyStr it.answer_text then
               checkTextRules rules question (it.answer_text.getD "")
             else .ok ()) with
      | .error e => .error e
      | .ok _ =>
          match it.answer_value with
          | some (.scalar v) =>
              match v.toNumeric with
              | some n => checkNumericRules rules question n
              | none => .ok ()
          | _ => .ok ()
  | _, _ => .ok ()

/-- Validate one question against its (possibly absent) submitted item:
the loop body of `_validate_response` (lines 316-343). -/
def checkQuestion (question : Question) (item : Option ItemReq) : Except VError Unit :=
  match checkRequired question item with
  | .error e => .error e
  | .ok _ => checkRules question item

/-- Fail-fast check of a list of questions in order. -/
def checkQuestions (items : List ItemReq) : List Question → Except VError Unit
  | [] => .ok ()
  | q :: qs =>
      match checkQuestion q (itemMap items q.id) with
      | .error e => .error e
      | .ok _ => checkQuestions items qs

/-- Fail-fast check of the sections in order. -/
def checkSections (items : List ItemReq) : List Section → Except VError Unit
  | [] => .ok ()
  | sec :: secs =>
      match checkQuestions items sec.questions with
      | .error e => .error e
      | .ok _ => checkSections items secs

/-- `_validate_response`: walk every question of every section in order,
aborting at the first violation. -/
def validate_response (survey : Survey) (items : List ItemReq) : Except VError Unit :=
  checkSections items survey.sections

/-- All questions of a survey in section/question order. -/
def allQuestions (survey : Survey) : List Question :=
  survey.sections.flatMap (fun sec => sec.questions)
/-! ## C1 lemmas -/

/-- The Likert-dict fold touches only `value_counts` and `numeric_values`,
and does so component-wise: counts get one `row:value` bump per pair,
and the numeric accumulator gains exactly the numeric values in order. -/
theorem dictFold_spec (kvs : List (String × Scalar)) (st : QStats) :
    (kvs.foldl (fun s kv =>
        let s := { s with
          value_counts := bump s.value_counts (kv.1 ++ ":" ++ pyStrScalar kv.2) }
        match kv.2.toNumeric with
        | some n => { s with numeric_values := s.numeric_values ++ [n] }
        | none => s) st)
    = { st with
        value_counts :=
          kvs.foldl (fun m kv => bump m (kv.1 ++ ":" ++ pyStrScalar kv.2)) st.value_counts,
        numeric_values :=
          st.numeric_values ++ kvs.filterMap (fun kv => kv.2.toNumeric) } := by
  induction kvs generalizing st with
  | nil => simp
  | cons kv rest ih =>
      simp only [List.foldl_cons, List.filterMap_cons]
      cases h : kv.2.toNumeric with
      | some n =>
          simp only [h]
          rw [ih]
          simp
      | none =>
          simp only [h]
          rw [ih]

/-- `finalizeStats` is a key-preserving map of the entries. -/
theorem lookup_finalizeStats (m : List (String × QStats)) (k : String) :
    (finalizeStats m).lookup k = (m.lookup k).map (fun st =>
      if st.numeric_values.isEmpty then st
      else { st with
        average := some ((sumInt st.numeric_values : Rat) / (st.numeric_values.length : Rat)) }) := by
  induction m with
  | nil => rfl
  | cons kv rest ih =>
      cases hb : k == kv.1 with
      | true =>
          simp only [finalizeStats, List.map_cons, List.lookup, hb]
          rfl
      | false =>
          simp only [finalizeStats, List.map_cons, List.lookup, hb] at ih ⊢
          exact ih

/-- **C1** (amended): the statistics aggregator folds every `ResponseItem`
as follows: a sequence bumps `value_counts[str(element)]` once per element
and leaves the numeric accumulator alone; a row-keyed Likert mapping bumps
`value_counts["row:value"]` per pair and appends the numeric values (with
booleans counting as numbers) in order; a numeric scalar — which, as in
Python, includes booleans — is appended to the numeric accumulator and
bumps `value_counts[str(value)]`; a string scalar only bumps
`value_counts`; and every question whose numeric accumulator is non-empty
gets `average` equal to the exact arithmetic mean of the accumulated
values (`average * count = sum`). -/
theorem C1_statistics_fold :
    (∀ (st : QStats) (item : ResponseItem) (vs : List Scalar),
        item.answer_value = some (.list vs) →
        (processItem st item).value_counts
            = vs.foldl (fun m v => bump m (pyStrScalar v)) st.value_counts
          ∧ (processItem st item).numeric_values = st.numeric_values)
  ∧ (∀ (st : QStats) (item : ResponseItem) (kvs : List (String × Scalar)),
        item.answer_value = some (.dict kvs) →
        (processItem st item).value_counts
            = kvs.foldl (fun m kv => bump m (kv.1 ++ ":" ++ pyStrScalar kv.2)) st.value_counts
          ∧ (processItem st item).numeric_values
            = st.numeric_values ++ kvs.filterMap (fun kv => kv.2.toNumeric))
  ∧ (∀ (st : QStats) (item : ResponseItem) (v : Scalar) (n : Int),
        item.answer_value = some (.scalar v) → v.toNumeric = some n →
        (processItem st item).numeric_values = st.numeric_values ++ [n]
          ∧ (processItem st item).value_counts = bump st.value_counts (pyStrScalar v))
  ∧ (∀ (st : QStats) (item : ResponseItem) (s : String),
        item.answer_value = some (.scalar (.str s)) →
        (processItem st item).value_counts = bump st.value_counts s
          ∧ (processItem st item).numeric_values = st.numeric_values)
  ∧ (∀ (responses : List Response) (k : String) (st : QStats),
        (get_response_statistics responses).question_stats.lookup k = some st →
        st.numeric_values ≠ [] →
        ∃ a : Rat, st.average = some a
          ∧ a * (st.numeric_values.length : Rat) = (sumInt st.numeric_values : Rat)) := by
  refine ⟨?_, ?_, ?_, ?_, ?_⟩
  · intro st item vs h
    cases ht : item.answer_text with
    | none => constructor <;> simp [processItem, h, ht]
    | some t =>
        by_cases he : t = "" <;> constructor <;> simp [processItem, h, ht, he]
  · intro st item kvs h
    cases ht : item.answer_text with
    | none => constructor <;> simp [processItem, h, ht, dictFold_spec]
    | some t =>
        by_cases he : t = "" <;> constructor <;>
          simp [processItem, h, ht, he, dictFold_spec]
  · intro st item v n h hn
    cases ht : item.answer_text with
    | none => constructor <;> simp [processItem, h, ht, hn]
    | some t =>
        by_cases he : t = "" <;> constructor <;> simp [processItem, h, ht, he, hn]
  · intro st item s h
    cases ht : item.answer_text with
    | none => constructor <;> simp [processItem, h, ht, Scalar.toNumeric, pyStrScalar]
    | some t =>
        by_cases he : t = "" <;> constructor <;>
          simp [processItem, h, ht, he, Scalar.toNumeric, pyStrScalar]
  · intro responses k st hl hne
    unfold get_response_statistics at hl
    by_cases hemp : responses.isEmpty
    · simp [hemp] at hl
    · simp only [hemp, if_false, Bool.false_eq_true, if_neg, not_false_iff] at hl
      rw [lookup_finalizeStats] at hl
      rcases Option.map_eq_some'.1 hl with ⟨st0, hst0, hg⟩
      by_cases hE : st0.numeric_values.isEmpty
      · rw [if_pos hE] at hg
        subst hg
        exact absurd (List.isEmpty_iff.mp hE) hne
      · rw [if_neg hE] at hg
        subst hg
        refine ⟨_, rfl, ?_⟩
        have hlen : ((st0.numeric_values.length : Rat)) ≠ 0 := by
          simp only [ne_eq, Nat.cast_eq_zero, List.length_eq_zero]
          intro hc
          exact hE (by simp [hc])
        simpa using div_mul_cancel₀ (sumInt st0.numeric_values : Rat) hlen

/-- **C1** counterexample to the claim as stated: for a response whose
`answer_value` is the boolean `True`, the claim says the aggregator only
increments `value_counts` "without touching the numeric accumulator", but
the code's `isinstance(value, (int, float))` test is true for Python
booleans, so the numeric accumulator receives the value 1. -/
theorem C1_counterexample :
    (((get_response_statistics
        [{ id := 1, survey_id := 1, user_info_hash := none, submitted_at := some 0,
           is_complete := true,
           items := [{ question_id := 7, answer_value := some (.scalar (.bool true)),
                       answer_text := none }] }]).question_stats.lookup "7").map
      QStats.numeric_values) = some [1] ∧ ([1] : List Int) ≠ [] := by
  constructor
  · rfl
  · decide

/-- Witness for `C1_statistics_fold` at a concrete input. -/
theorem C1_statistics_fold_witness :
    ∃ a : Rat,
      (⟨1, [("3", 1)], [], [3], some 3⟩ : QStats).average = some a ∧
      a * ((⟨1, [("3", 1)], [], [3], some 3⟩ : QStats).numeric_values.length : Rat)
        = (sumInt (⟨1, [("3", 1)], [], [3], some 3⟩ : QStats).numeric_values : Rat) :=
  C1_statistics_fold.2.2.2.2
    [{ id := 1, survey_id := 1, user_info_hash := none, submitted_at := some 0,
       is_complete := true,
       items := [{ question_id := 7, answer_value := some (.scalar (.num 3)),
                   answer_text := none }] }]
    "7" ⟨1, [("3", 1)], [], [3], some 3⟩
    (by norm_num [get_response_statistics, foldResponses, finalizeStats, setStats,
          getStats, processItem, sumInt, bump, pyStrScalar, Scalar.toNumeric, QStats.init]
        rfl)
    (by decide)

/-! ## Question numbering (`response_service._get_question_number`) -/

/-- `_get_section_letter`: `chr(65 + index)` — A, B, C, … -/
def get_section_letter (i : Nat) : String :=
  String.singleton (Char.ofNat (65 + i))

/-- First index satisfying a predicate (the `for … enumerate … break`
loops of `_get_question_number`). -/
def findIdxO {α : Type} (p : α → Bool) : List α → Option Nat
  | [] => none
  | x :: xs => if p x then some 0 else (findIdxO p xs).map (· + 1)

/-- `_get_question_number`: section letter from the section's array
position, question number from its 1-based position among the non-hidden
questions of that section; `""` when either lookup fails. -/
def get_question_number (survey : Survey) (question : Question) : String :=
  match findIdxO (fun sec => sec.id == question.section_id) survey.sections with
  | none => ""
  | some si =>
      let letter := get_section_letter si
      let section_questions :=
        ((survey.sections[si]?.map Section.questions).getD []).filter (fun q => !q.is_hidden)
      match findIdxO (fun q => q.id == question.id) section_questions with
      | none => ""
      | some qi => letter ++ toString (qi + 1)

theorem findIdxO_eq_none {α : Type} (p : α → Bool) (l : List α)
    (h : ∀ x ∈ l, ¬ p x = true) : findIdxO p l = none := by
  induction l with
  | nil => rfl
  | cons x xs ih =>
      have hx : ¬ p x = true := h x (List.mem_cons_self x xs)
      simp only [findIdxO, if_neg hx]
      rw [ih (fun y hy => h y (List.mem_cons_of_mem x hy))]
      rfl

theorem findIdxO_eq_some {α : Type} (p : α → Bool) (l : List α) (i : Nat) (x : α)
    (hx : l[i]? = some x) (hp : p x = true)
    (hbefore : ∀ j y, j < i → l[j]? = some y → ¬ p y = true) :
    findIdxO p l = some i := by
  induction l generalizing i with
  | nil => simp at hx
  | cons a as ih =>
      cases i with
      | zero =>
          simp only [List.getElem?_cons_zero, Option.some.injEq] at hx
          subst hx
          simp [findIdxO, hp]
      | succ n =>
          have ha : ¬ p a = true := hbefore 0 a (Nat.succ_pos n) (by simp)
          simp only [findIdxO, if_neg ha]
          rw [ih n (by simpa using hx)
            (fun j y hj hy => hbefore (j + 1) y (Nat.succ_lt_succ hj) (by simpa using hy))]
          rfl

/-- **C5**: the question-numbering function is a pure function of the
survey structure: the section letter is `chr(65 + array position)` of the
first section whose id equals the question's `section_id`, the number is
the 1-based position of the question among the non-hidden questions of
that section, and the label is their concatenation; if the section or the
question cannot be located, the empty string is returned; and on the
spec's example survey — S0 with questions (visible, hidden, visible) and
S1 with one visible question — the labels of the visible questions are
exactly A1, A2, B1, with the hidden question skipped (its own label is
empty). -/
theorem C5_question_numbering :
    (∀ (survey : Survey) (question : Question) (si : Nat) (sec : Section)
        (k : Nat) (q' : Question),
        survey.sections[si]? = some sec →
        (∀ j s', j < si → survey.sections[j]? = some s' →
          ¬ (s'.id == question.section_id) = true) →
        (sec.id == question.section_id) = true →
        (sec.questions.filter (fun q => !q.is_hidden))[k]? = some q' →
        (q'.id == question.id) = true →
        (∀ j q'', j < k → (sec.questions.filter (fun q => !q.is_hidden))[j]? = some q'' →
          ¬ (q''.id == question.id) = true) →
        get_question_number survey question
          = String.singleton (Char.ofNat (65 + si)) ++ toString (k + 1))
  ∧ (∀ (survey : Survey) (question : Question),
        (∀ sec ∈ survey.sections, ¬ (sec.id == question.section_id) = true) →
        get_question_number survey question = "")
  ∧ (∀ (survey : Survey) (question : Question) (si : Nat) (sec : Section),
        survey.sections[si]? = some sec →
        (∀ j s', j < si → survey.sections[j]? = some s' →
          ¬ (s'.id == question.section_id) = true) →
        (sec.id == question.section_id) = true →
        (∀ q' ∈ sec.questions.filter (fun q => !q.is_hidden),
          ¬ (q'.id == question.id) = true) →
        get_question_number survey question = "")
  ∧ ((let survey : Survey :=
        { id := 1, status := .published, duplicate_prevention := false,
          sections :=
            [{ id := some 10, questions :=
                [{ id := 1, section_id := some 10 },
                 { id := 2, section_id := some 10, is_hidden := true },
                 { id := 3, section_id := some 10 }] },
             { id := some 20, questions := [{ id := 4, section_id := some 20 }] }] }
      (survey.sections.flatMap (fun sec =>
          sec.questions.filter (fun q => !q.is_hidden))).map (get_question_number survey)
        = ["A1", "A2", "B1"]
      ∧ get_question_number survey { id := 2, section_id := some 10, is_hidden := true }
          = "")) := by
  refine ⟨?_, ?_, ?_, ?_⟩
  · intro survey question si sec k q' hsec hbef hmatch hk hq hbefq
    unfold get_question_number
    rw [findIdxO_eq_some _ _ si sec hsec hmatch hbef]
    simp only [hsec, Option.map_some', Option.getD_some]
    rw [findIdxO_eq_some _ _ k q' hk hq hbefq]
    simp [get_section_letter]
  · intro survey question hnone
    unfold get_question_number
    rw [findIdxO_eq_none _ _ hnone]
  · intro survey question si sec hsec hbef hmatch hnoneq
    unfold get_question_number
    rw [findIdxO_eq_some _ _ si sec hsec hmatch hbef]
    simp only [hsec, Option.map_some', Option.getD_some]
    rw [findIdxO_eq_none _ _ hnoneq]
  · constructor
    · rfl
    · rfl

/-- Witness for `C5_question_numbering` at the example survey: the third
question of section 0 (second visible one) is labeled "A2". -/
theorem C5_question_numbering_witness :
    get_question_number
      { id := 1, status := .published, duplicate_prevention := false,
        sections :=
          [{ id := some 10, questions :=
              [{ id := 1, section_id := some 10 },
               { id := 2, section_id := some 10, is_hidden := true },
               { id := 3, section_id := some 10 }] },
           { id := some 20, questions := [{ id := 4, section_id := some 20 }] }] }
      { id := 3, section_id := some 10 }
      = String.singleton (Char.ofNat (65 + 0)) ++ toString (1 + 1) := by
  exact C5_question_numbering.1
    _ _ 0 { id := some 10, questions :=
              [{ id := 1, section_id := some 10 },
               { id := 2, section_id := some 10, is_hidden := true },
               { id := 3, section_id := some 10 }] }
    1 { id := 3, section_id := some 10 }
    (by rfl) (by intro j s' hj _; omega) (by decide)
    (by rfl) (by decide)
    (by intro j q'' hj hq''
        have hj0 : j = 0 := by omega
        subst hj0
        have hq1 : ({ id := 1, section_id := some 10 } : Question) = q'' := by
          simpa using hq''
        subst hq1
        decide)

/-! ## Validator lemmas -/

theorem checkQuestions_append (items : List ItemReq) (l1 l2 : List Question) :
    checkQuestions items (l1 ++ l2)
      = match checkQuestions items l1 with
        | .error e => .error e
        | .ok _ => checkQuestions items l2 := by
  induction l1 with
  | nil => rfl
  | cons q qs ih =>
      simp only [List.cons_append, checkQuestions]
      cases checkQuestion q (itemMap items q.id) with
      | error e => rfl
      | ok _ => exact ih

theorem checkSections_eq_flat (items : List ItemReq) (secs : List Section) :
    checkSections items secs = checkQuestions items (secs.flatMap Section.questions) := by
  induction secs with
  | nil => rfl
  | cons sec rest ih =>
      simp only [List.flatMap_cons, checkSections, checkQuestions_append]
      cases h : checkQuestions items sec.questions with
      | error e => rfl
      | ok _ => exact ih

/-- The nested section/question loops equal the fail-fast scan of the
flattened question list. -/
theorem validate_eq_flat (survey : Survey) (items : List ItemReq) :
    validate_response survey items = checkQuestions items (allQuestions survey) :=
  checkSections_eq_flat items survey.sections

theorem checkTextRules_error_shape (rules : ValidationRules) (q : Question) (t : String)
    (e : VError) (h : checkTextRules rules q t = .error e) :
    e = .textMinLength (rules.min_length.getD 0) q.title
      ∨ e = .textMaxLength (rules.max_length.getD 0) q.title
      ∨ e = .patternMismatch q.title := by
  unfold checkTextRules at h
  split at h
  · left; injection h with h2; exact h2.symm
  · split at h
    · right; left; injection h with h2; exact h2.symm
    · split at h
      · right; right; injection h with h2; exact h2.symm
      · exact Except.noConfusion h


theorem checkNumericRules_error_shape (rules : ValidationRules) (q : Question) (n : Int)
    (e : VError) (h : checkNumericRules rules q n = .error e) :
    e = .numericMin (rules.min_value.getD 0) q.title
      ∨ e = .numericMax (rules.max_value.getD 0) q.title := by
  unfold checkNumericRules at h
  split at h
  · left; injection h with h2; exact h2.symm
  · split at h
    · right; injection h with h2; exact h2.symm
    · exact Except.noConfusion h

/-- The rules block can only raise length/pattern/numeric violations,
never a required-field error. -/
theorem checkRules_ne_requiredFieldMissing (q : Question) (item : Option ItemReq)
    (s : String) : checkRules q item ≠ .error (.requiredFieldMissing s) := by
  intro h
  rcases item with _ | it
  · simp [checkRules] at h
  · rcases hr : q.validation_rules with _ | rules
    · simp [checkRules, hr] at h
    · simp only [checkRules, hr] at h
      split at h
      · rename_i e heq
        injection h with h2
        subst h2
        by_cases htr : truthyStr it.answer_text = true
        · rw [if_pos htr] at heq
          rcases checkTextRules_error_shape rules q _ _ heq with h3 | h3 | h3 <;>
            exact VError.noConfusion h3
        · rw [if_neg htr] at heq
          exact Except.noConfusion heq
      · split at h
        · split at h
          · rcases checkNumericRules_error_shape rules q _ _ h with h3 | h3 <;>
              exact VError.noConfusion h3
          · exact Except.noConfusion h
        · exact Except.noConfusion h

/-- **C2** counterexample to the claim as stated: a required question with
`min_length = 5` whose item supplies the non-empty `answer_text` "ab"
(and no other questions exist, so every other item is valid) still makes
validation fail — with a length violation naming that question — whereas
the claim says "validation does not fail on that question". -/
theorem C2_counterexample :
    validate_response
      { id := 1, status := .published,
        sections := [{ id := some 1, questions :=
          [{ id := 1, section_id := some 1, title := "Q1", required := true,
             validation_rules := some { min_length := some 5 } }] }] }
      [{ question_id := 1, answer_value := none, answer_text := some "ab" }]
      = .error (.textMinLength 5 "Q1") := by rfl

/-- **C2** (amended): for every survey and submitted item set and every
required question `q`: if `q`'s item is absent, or has a null
`answer_value` and a falsy (empty) `answer_text` — all questions before
`q` in section/question order checking out — validation fails with a
required-field error naming `q`; and if `q`'s item supplies a non-null
`answer_value` or a non-empty `answer_text`, the per-question check never
produces a required-field error for `q` (though `q`'s own length, pattern
or numeric rules may still fail it with a different error). -/
theorem C2_required_field :
    (∀ (survey : Survey) (items : List ItemReq) (pre : List Question)
        (q : Question) (post : List Question),
        allQuestions survey = pre ++ q :: post →
        (∀ q' ∈ pre, checkQuestion q' (itemMap items q'.id) = .ok ()) →
        q.required = true →
        (itemMap items q.id = none ∨
          ∃ it, itemMap items q.id = some it ∧ it.answer_value = none ∧
            truthyStr it.answer_text = false) →
        validate_response survey items = .error (.requiredFieldMissing q.title))
  ∧ (∀ (q : Question) (it : ItemReq),
        q.required = true →
        (it.answer_value.isSome = true ∨ truthyStr it.answer_text = true) →
        checkQuestion q (some it) ≠ .error (.requiredFieldMissing q.title)) := by
  constructor
  · intro survey items pre q post hsplit hpre hreq hmiss
    rw [validate_eq_flat, hsplit, checkQuestions_append]
    have hpre_ok : checkQuestions items pre = .ok () := by
      clear hsplit
      induction pre with
      | nil => rfl
      | cons p ps ih =>
          simp only [checkQuestions, hpre p (List.mem_cons_self p ps)]
          exact ih (fun q' hq' => hpre q' (List.mem_cons_of_mem p hq'))
    rw [hpre_ok]
    have hq : checkQuestion q (itemMap items q.id) = .error (.requiredFieldMissing q.title) := by
      rcases hmiss with hnone | ⟨it, hit, hval, htxt⟩
      · simp [checkQuestion, checkRequired, hnone, hreq]
      · simp [checkQuestion, checkRequired, hit, hreq, hval, htxt]
    simp [checkQuestions, hq]
  · intro q it hreq hsup h
    have hcond : (it.answer_value.isNone && !truthyStr it.answer_text) = false := by
      rcases hsup with h1 | h1
      · cases hv : it.answer_value with
        | none => rw [hv] at h1; simp at h1
        | some v => simp [hv]
      · simp [h1]
    have hcr : checkRequired q (some it) = .ok () := by
      simp [checkRequired, hreq, hcond]
    unfold checkQuestion at h
    rw [hcr] at h
    exact checkRules_ne_requiredFieldMissing q (some it) q.title h

/-- Witness for `C2_required_field` at a concrete survey: submitting no
item for the single required question fails with the required-field
error. -/
theorem C2_required_field_witness :
    validate_response
      { id := 1, status := .published,
        sections := [{ id := some 1, questions :=
          [{ id := 1, section_id := some 1, title := "Q1", required := true }] }] }
      [] = .error (.requiredFieldMissing "Q1") := by
  exact C2_required_field.1
    { id := 1, status := .published,
      sections := [{ id := some 1, questions :=
        [{ id := 1, section_id := some 1, title := "Q1", required := true }] }] }
    [] []
    { id := 1, section_id := some 1, title := "Q1", required := true }
    [] (by rfl) (by intro q' hq'; simp at hq') (by rfl) (Or.inl (by rfl))

/-- Is an error a text-length violation? -/
def VError.isTextLen : VError → Bool
  | .textMinLength _ _ => true
  | .textMaxLength _ _ => true
  | _ => false

/-- **C8** counterexample to the claim as stated: with `max_length = 0`
defined and the one-character text "a" (so length 1 > 0, which the claim
calls a violation), validation succeeds, because the code guards the
check with Python truthiness (`rules.max_length and ...`) and `0` is
falsy. -/
theorem C8_counterexample :
    validate_response
      { id := 1, status := .published,
        sections := [{ id := some 1, questions :=
          [{ id := 1, section_id := some 1, title := "Q1",
             validation_rules := some { max_length := some 0 } }] }] }
      [{ question_id := 1, answer_value := none, answer_text := some "a" }]
      = .ok () ∧ (("a".length : Int) > 0) := by
  constructor
  · rfl
  · decide

/-- **C8** (amended): for a question whose rules define length bounds and
an item with a non-empty `answer_text`, the per-question check yields a
text-length violation (carrying the violated bound and the question
title) exactly when the character-counted length is below a defined
non-zero `min_length` or above a defined non-zero `max_length`; bounds
equal to 0 are falsy in Python and are skipped. -/
theorem C8_text_length :
    ∀ (q : Question) (rules : ValidationRules) (it : ItemReq) (t : String),
      q.validation_rules = some rules →
      it.answer_text = some t → t ≠ "" →
      ((∃ e, checkQuestion q (some it) = .error e ∧ e.isTextLen = true) ↔
        ((∃ m, rules.min_length = some m ∧ m ≠ 0 ∧ (t.length : Int) < m) ∨
         (∃ m, rules.max_length = some m ∧ m ≠ 0 ∧ (t.length : Int) > m))) := by
  intro q rules it t hr ht htne
  have htr : truthyStr it.answer_text = true := by simp [truthyStr, ht, htne]
  have hgetD : it.answer_text.getD "" = t := by simp [ht]
  have hcr : checkRequired q (some it) = .ok () := by
    by_cases hrq : q.required = true
    · simp [checkRequired, hrq, htr]
    · simp [checkRequired, hrq]
  have hcq : checkQuestion q (some it) = checkRules q (some it) := by
    simp [checkQuestion, hcr]
  have hcrules : checkRules q (some it)
      = match checkTextRules rules q t with
        | .error e => .error e
        | .ok _ =>
            (match it.answer_value with
             | some (.scalar v) =>
                 (match v.toNumeric with
                  | some n => checkNumericRules rules q n
                  | none => .ok ())
             | _ => .ok ()) := by
    simp [checkRules, hr, htr, hgetD]
  rw [hcq, hcrules]
  by_cases h1 : (truthyInt rules.min_length
      && decide ((t.length : Int) < rules.min_length.getD 0)) = true
  · have htx : checkTextRules rules q t
        = .error (.textMinLength (rules.min_length.getD 0) q.title) := by
      unfold checkTextRules
      rw [if_pos h1]
    rw [htx]
    constructor
    · intro _
      left
      rcases hm : rules.min_length with _ | m
      · rw [hm] at h1; simp [truthyInt] at h1
      · rw [hm] at h1
        simp [truthyInt] at h1
        exact ⟨m, rfl, h1.1, h1.2⟩
    · intro _
      exact ⟨_, rfl, rfl⟩
  · by_cases h2 : (truthyInt rules.max_length
        && decide ((t.length : Int) > rules.max_length.getD 0)) = true
    · have htx : checkTextRules rules q t
          = .error (.textMaxLength (rules.max_length.getD 0) q.title) := by
        unfold checkTextRules
        rw [if_neg h1, if_pos h2]
      rw [htx]
      constructor
      · intro _
        right
        rcases hm : rules.max_length with _ | m
        · rw [hm] at h2; simp [truthyInt] at h2
        · rw [hm] at h2
          simp [truthyInt] at h2
          exact ⟨m, rfl, h2.1, h2.2⟩
      · intro _
        exact ⟨_, rfl, rfl⟩
    · constructor
      · rintro ⟨e, he, hlen⟩
        exfalso
        by_cases h3 : (rules.pattern == some "email" && !reMatchEmail t) = true
        · have htx : checkTextRules rules q t = .error (.patternMismatch q.title) := by
            unfold checkTextRules
            rw [if_neg h1, if_neg h2, if_pos h3]
          rw [htx] at he
          injection he with he2
          subst he2
          exact Bool.noConfusion hlen
        · have htx : checkTextRules rules q t = .ok () := by
            unfold checkTextRules
            rw [if_neg h1, if_neg h2, if_neg h3]
          rw [htx] at he
          split at he
          · rename_i heq
            exact Except.noConfusion heq
          · split at he
            · split at he
              · rcases checkNumericRules_error_shape rules q _ _ he with h4 | h4 <;>
                  (subst h4; exact Bool.noConfusion hlen)
              · exact Except.noConfusion he
            · exact Except.noConfusion he
      · rintro (⟨m, hm, hm0, hlt⟩ | ⟨m, hm, hm0, hgt⟩)
        · exfalso
          apply h1
          rw [hm]
          simp [truthyInt, hm0, hlt]
        · exfalso
          apply h2
          rw [hm]
          simp [truthyInt, hm0, hgt]

/-- Witness for `C8_text_length`: a concrete question with
`min_length = 5` and the text "ab" yields a text-length violation, in
accordance with the characterization. -/
theorem C8_text_length_witness :
    (∃ e, checkQuestion
        { id := 1, section_id := some 1, title := "Q1",
          validation_rules := some { min_length := some 5 } }
        (some { question_id := 1, answer_value := none, answer_text := some "ab" })
        = .error e ∧ e.isTextLen = true) ↔
      ((∃ m, (some 5 : Option Int) = some m ∧ m ≠ 0 ∧ (("ab".length : Int)) < m) ∨
       (∃ m, (none : Option Int) = some m ∧ m ≠ 0 ∧ (("ab".length : Int)) > m)) := by
  exact C8_text_length
    { id := 1, section_id := some 1, title := "Q1",
      validation_rules := some { min_length := some 5 } }
    { min_length := some 5 }
    { question_id := 1, answer_value := none, answer_text := some "ab" }
    "ab" (by rfl) (by rfl) (by decide)

/-! ## Email-pattern characterization -/

theorem seekDot_iff (cs : List Char) :
    seekDot cs = true ↔
      ∃ (m : List Char) (d : Char) (rest : List Char),
        cs = m ++ '.' :: d :: rest ∧ (∀ c ∈ m, c ≠ '@') ∧ d ≠ '@' := by
  induction cs with
  | nil =>
      constructor
      · intro h
        simp [seekDot] at h
      · rintro ⟨m, d, rest, heq, -, -⟩
        exact absurd heq (by simp)
  | cons c cs' ih =>
      by_cases hc : c = '@'
      · subst hc
        constructor
        · intro h
          simp [seekDot] at h
        · rintro ⟨m, d, rest, heq, hm, hd⟩
          exfalso
          cases m with
          | nil =>
              injection heq with h1 h2
              exact absurd h1 (by decide)
          | cons a m' =>
              injection heq with h1 h2
              exact hm a (by simp) h1.symm
      · by_cases hdot : c = '.'
        · subst hdot
          have hrhs : (∃ (m : List Char) (d : Char) (rest : List Char),
                '.' :: cs' = m ++ '.' :: d :: rest ∧ (∀ c ∈ m, c ≠ '@') ∧ d ≠ '@')
              ↔ ((∃ (d : Char) (rest : List Char), cs' = d :: rest ∧ d ≠ '@')
                  ∨ (∃ (m : List Char) (d : Char) (rest : List Char),
                      cs' = m ++ '.' :: d :: rest ∧ (∀ c ∈ m, c ≠ '@') ∧ d ≠ '@')) := by
            constructor
            · rintro ⟨m, d, rest, heq, hm, hd⟩
              cases m with
              | nil =>
                  injection heq with h1 h2
                  exact Or.inl ⟨d, rest, h2, hd⟩
              | cons a m' =>
                  injection heq with h1 h2
                  exact Or.inr ⟨m', d, rest, h2,
                    fun x hx => hm x (List.mem_cons_of_mem a hx), hd⟩
            · rintro (⟨d, rest, heq, hd⟩ | ⟨m, d, rest, heq, hm, hd⟩)
              · exact ⟨[], d, rest, by rw [heq]; rfl, by simp, hd⟩
              · refine ⟨'.' :: m, d, rest, by rw [heq]; rfl, ?_, hd⟩
                intro x hx
                rcases List.mem_cons.mp hx with h1 | h1
                · subst h1; decide
                · exact hm x h1
          rw [hrhs]
          cases cs' with
          | nil =>
              constructor
              · intro h
                simp [seekDot] at h
              · rintro (⟨d, rest, heq, -⟩ | h)
                · exact absurd heq (by simp)
                · exact absurd (ih.mpr h) (by simp [seekDot])
          | cons d0 rest0 =>
              by_cases hd0 : d0 = '@'
              · subst hd0
                have hL : seekDot ('.' :: '@' :: rest0) = seekDot ('@' :: rest0) := by
                  simp [seekDot]
                rw [hL, ih]
                constructor
                · intro h
                  exact Or.inr h
                · rintro (⟨d, rest, heq, hd⟩ | h)
                  · injection heq with h1 h2
                    exact absurd h1.symm hd
                  · exact h
              · have hL : seekDot ('.' :: d0 :: rest0) = true := by
                  simp [seekDot, hd0]
                rw [hL]
                constructor
                · intro _
                  exact Or.inl ⟨d0, rest0, rfl, hd0⟩
                · intro _
                  rfl
        · have hL : seekDot (c :: cs') = seekDot cs' := by
            simp [seekDot, hc, hdot]
          rw [hL, ih]
          constructor
          · rintro ⟨m, d, rest, heq, hm, hd⟩
            refine ⟨c :: m, d, rest, by rw [heq]; rfl, ?_, hd⟩
            intro x hx
            rcases List.mem_cons.mp hx with h1 | h1
            · subst h1; exact hc
            · exact hm x h1
          · rintro ⟨m, d, rest, heq, hm, hd⟩
            cases m with
            | nil =>
                injection heq with h1 h2
                exact absurd h1 hdot
            | cons a m' =>
                injection heq with h1 h2
                exact ⟨m', d, rest, h2,
                  fun x hx => hm x (List.mem_cons_of_mem a hx), hd⟩

theorem tailMatch_iff (cs : List Char) :
    tailMatch cs = true ↔
      ∃ (m : List Char) (d : Char) (rest : List Char),
        cs = m ++ '.' :: d :: rest ∧ m ≠ [] ∧ (∀ c ∈ m, c ≠ '@') ∧ d ≠ '@' := by
  cases cs with
  | nil =>
      constructor
      · intro h
        simp [tailMatch] at h
      · rintro ⟨m, d, rest, heq, -, -, -⟩
        exact absurd heq (by simp)
  | cons c cs' =>
      by_cases hc : c = '@'
      · subst hc
        constructor
        · intro h
          simp [tailMatch] at h
        · rintro ⟨m, d, rest, heq, hne, hm, hd⟩
          cases m with
          | nil => exact absurd rfl hne
          | cons a m' =>
              injection heq with h1 h2
              exact absurd h1.symm (hm a (by simp))
      · have hL : tailMatch (c :: cs') = seekDot cs' := by
          simp [tailMatch, hc]
        rw [hL, seekDot_iff]
        constructor
        · rintro ⟨m, d, rest, heq, hm, hd⟩
          refine ⟨c :: m, d, rest, by rw [heq]; rfl, by simp, ?_, hd⟩
          intro x hx
          rcases List.mem_cons.mp hx with h1 | h1
          · subst h1; exact hc
          · exact hm x h1
        · rintro ⟨m, d, rest, heq, hne, hm, hd⟩
          cases m with
          | nil => exact absurd rfl hne
          | cons a m' =>
              injection heq with h1 h2
              exact ⟨m', d, rest, h2,
                fun x hx => hm x (List.mem_cons_of_mem a hx), hd⟩

theorem afterFirst_iff (cs : List Char) :
    afterFirst cs = true ↔
      ∃ (l rest : List Char), cs = l ++ '@' :: rest ∧ (∀ c ∈ l, c ≠ '@')
        ∧ tailMatch rest = true := by
  induction cs with
  | nil =>
      constructor
      · intro h
        simp [afterFirst] at h
      · rintro ⟨l, rest, heq, -, -⟩
        exact absurd heq (by simp)
  | cons c cs' ih =>
      by_cases hc : c = '@'
      · subst hc
        have hL : afterFirst ('@' :: cs') = tailMatch cs' := by
          simp [afterFirst]
        rw [hL]
        constructor
        · intro h
          exact ⟨[], cs', rfl, by simp, h⟩
        · rintro ⟨l, rest, heq, hl, ht⟩
          cases l with
          | nil =>
              injection heq with h1 h2
              rw [h2]
              exact ht
          | cons a l' =>
              injection heq with h1 h2
              exact absurd h1.symm (hl a (by simp))
      · have hL : afterFirst (c :: cs') = afterFirst cs' := by
          simp [afterFirst, hc]
        rw [hL, ih]
        constructor
        · rintro ⟨l, rest, heq, hl, ht⟩
          refine ⟨c :: l, rest, by rw [heq]; rfl, ?_, ht⟩
          intro x hx
          rcases List.mem_cons.mp hx with h1 | h1
          · subst h1; exact hc
          · exact hl x h1
        · rintro ⟨l, rest, heq, hl, ht⟩
          cases l with
          | nil =>
              injection heq with h1 h2
              exact absurd h1 hc
          | cons a l' =>
              injection heq with h1 h2
              exact ⟨l', rest, h2,
                fun x hx => hl x (List.mem_cons_of_mem a hx), ht⟩

/-- `re.match(r"[^@]+@[^@]+\.[^@]+", s)` succeeds exactly when SOME PREFIX
of `s` decomposes as: one or more non-`@` characters, an `@`, one or more
non-`@` characters, a `.`, and one more non-`@` character (anything may
follow). -/
theorem reMatchEmail_iff (s : String) :
    reMatchEmail s = true ↔
      ∃ (l m : List Char) (d : Char) (rest : List Char),
        s.data = l ++ '@' :: (m ++ '.' :: d :: rest) ∧ l ≠ [] ∧ (∀ c ∈ l, c ≠ '@')
          ∧ m ≠ [] ∧ (∀ c ∈ m, c ≠ '@') ∧ d ≠ '@' := by
  unfold reMatchEmail
  cases hs : s.data with
  | nil =>
      constructor
      · intro h
        simp at h
      · rintro ⟨l, m, d, rest, heq, hl, -, -, -, -⟩
        exact absurd heq (by simp)
  | cons c cs' =>
      by_cases hc : c = '@'
      · subst hc
        constructor
        · intro h
          simp at h
        · rintro ⟨l, m, d, rest, heq, hl, hlm, -, -, -⟩
          cases l with
          | nil => exact absurd rfl hl
          | cons a l' =>
              injection heq with h1 h2
              exact absurd h1.symm (hlm a (by simp))
      · have hred : (match c :: cs' with
            | [] => false
            | c :: rest => if c = '@' then false else afterFirst rest)
            = afterFirst cs' := by
          simp [hc]
        rw [hred, afterFirst_iff]
        constructor
        · rintro ⟨l', rest, heq', hl', ht⟩
          rcases (tailMatch_iff rest).mp ht with ⟨m, d, rest2, heqr, hmne, hm, hd⟩
          refine ⟨c :: l', m, d, rest2, ?_, by simp, ?_, hmne, hm, hd⟩
          · rw [heq', heqr]
            rfl
          · intro x hx
            rcases List.mem_cons.mp hx with h1 | h1
            · subst h1; exact hc
            · exact hl' x h1
        · rintro ⟨l, m, d, rest, heq, hl, hlm, hmne, hm, hd⟩
          cases l with
          | nil => exact absurd rfl hl
          | cons a l' =>
              injection heq with h1 h2
              refine ⟨l', m ++ '.' :: d :: rest, h2,
                fun x hx => hlm x (List.mem_cons_of_mem a hx), ?_⟩
              exact (tailMatch_iff _).mpr ⟨m, d, rest, rfl, hmne, hm, hd⟩

theorem checkRequired_error_shape (q : Question) (item : Option ItemReq) (e : VError)
    (h : checkRequired q item = .error e) : e = .requiredFieldMissing q.title := by
  unfold checkRequired at h
  split at h
  · split at h
    · injection h with h2
      exact h2.symm
    · split at h
      · injection h with h2
        exact h2.symm
      · exact Except.noConfusion h
  · exact Except.noConfusion h

theorem checkTextRules_no_pattern (rules : ValidationRules) (q : Question) (t : String)
    (hp : rules.pattern ≠ some "email") (s : String) :
    checkTextRules rules q t ≠ .error (.patternMismatch s) := by
  intro h
  unfold checkTextRules at h
  split at h
  · injection h with h2
    exact VError.noConfusion h2
  · split at h
    · injection h with h2
      exact VError.noConfusion h2
    · split at h
      · rename_i h3
        have hbeq : (rules.pattern == some "email") = true :=
          ((Bool.and_eq_true _ _).mp h3).1
        exact hp (eq_of_beq hbeq)
      · exact Except.noConfusion h

/-- Pattern tags other than the literal "email" are never validated: the
rules block cannot produce a pattern-mismatch error for them. -/
theorem checkRules_no_pattern (q : Question) (rules : ValidationRules)
    (item : Option ItemReq) (hr : q.validation_rules = some rules)
    (hp : rules.pattern ≠ some "email") (s : String) :
    checkRules q item ≠ .error (.patternMismatch s) := by
  intro h
  rcases item with _ | it
  · simp [checkRules] at h
  · simp only [checkRules, hr] at h
    split at h
    · rename_i e heq
      injection h with h2
      subst h2
      by_cases htr : truthyStr it.answer_text = true
      · rw [if_pos htr] at heq
        exact checkTextRules_no_pattern rules q _ hp s heq
      · rw [if_neg htr] at heq
        exact Except.noConfusion heq
    · split at h
      · split at h
        · rcases checkNumericRules_error_shape rules q _ _ h with h3 | h3 <;>
            exact VError.noConfusion h3
        · exact Except.noConfusion h
      · exact Except.noConfusion h

/-- Modelled from the spec's words (the claim's full-text email shape):
"at least one non-'@' character, then an '@', then at least one non-'@'
run containing a '.', with at least one character after the final '.'" —
the run after the '@' covers the whole remaining text. -/
def emailShapeSpec (s : String) : Bool :=
  match s.data.dropWhile (fun c => c != '@') with
  | '@' :: t =>
      !(s.data.takeWhile (fun c => c != '@')).isEmpty
        && t.all (fun c => c != '@') && t.contains '.'
        && (match t.getLast? with
            | some c2 => c2 != '.'
            | none => false)
  | _ => false

/-- **C9** counterexample to the claim as stated: the text "a@b.c." does
not have the claimed full-text shape (nothing follows the final '.'),
so the claim demands a pattern-mismatch failure; but `re.match` anchors
only at the start, the prefix "a@b.c" matches, and validation passes. -/
theorem C9_counterexample :
    validate_response
      { id := 1, status := .published,
        sections := [{ id := some 1, questions :=
          [{ id := 1, section_id := some 1, title := "Q1",
             validation_rules := some { pattern := some "email" } }] }] }
      [{ question_id := 1, answer_value := none, answer_text := some "a@b.c." }]
      = .ok () ∧ emailShapeSpec "a@b.c." = false := by
  constructor
  · rfl
  · rfl

/-- **C9** (amended): for a question whose rules' pattern is the literal
tag "email" and an item with a non-empty `answer_text` (and no length
bounds), the per-question check fails with a pattern mismatch exactly
when NO PREFIX of the text matches `[^@]+@[^@]+\.[^@]+` — i.e. there is
no decomposition `l ++ "@" ++ m ++ "." ++ d ++ anything` with `l`, `m`
non-empty runs of non-'@' characters and `d` a non-'@' character; the
full text may continue arbitrarily after the matched prefix. Pattern
tags other than "email" cause no pattern validation at all. -/
theorem C9_email_pattern :
    (∀ (q : Question) (rules : ValidationRules) (it : ItemReq) (t : String),
        q.validation_rules = some rules →
        rules.pattern = some "email" →
        rules.min_length = none → rules.max_length = none →
        it.answer_text = some t → t ≠ "" →
        (checkQuestion q (some it) = .error (.patternMismatch q.title) ↔
          ¬ ∃ (l m : List Char) (d : Char) (rest : List Char),
              t.data = l ++ '@' :: (m ++ '.' :: d :: rest) ∧ l ≠ [] ∧
                (∀ c ∈ l, c ≠ '@') ∧ m ≠ [] ∧ (∀ c ∈ m, c ≠ '@') ∧ d ≠ '@'))
  ∧ (∀ (q : Question) (rules : ValidationRules) (item : Option ItemReq),
        q.validation_rules = some rules →
        rules.pattern ≠ some "email" →
        checkQuestion q item ≠ .error (.patternMismatch q.title)) := by
  constructor
  · intro q rules it t hr hpat hmin hmax ht htne
    have htr : truthyStr it.answer_text = true := by simp [truthyStr, ht, htne]
    have hgetD : it.answer_text.getD "" = t := by simp [ht]
    have hcr : checkRequired q (some it) = .ok () := by
      by_cases hrq : q.required = true
      · simp [checkRequired, hrq, htr]
      · simp [checkRequired, hrq]
    have hcq : checkQuestion q (some it) = checkRules q (some it) := by
      simp [checkQuestion, hcr]
    have hcrules : checkRules q (some it)
        = match checkTextRules rules q t with
          | .error e => .error e
          | .ok _ =>
              (match it.answer_value with
               | some (.scalar v) =>
                   (match v.toNumeric with
                    | some n => checkNumericRules rules q n
                    | none => .ok ())
               | _ => .ok ()) := by
      simp [checkRules, hr, htr, hgetD]
    rw [hcq, hcrules]
    have htx : checkTextRules rules q t
        = if reMatchEmail t then .ok () else .error (.patternMismatch q.title) := by
      unfold checkTextRules
      rw [hmin, hmax, hpat]
      simp [truthyInt]
      by_cases hre : reMatchEmail t = true <;> simp [hre]
    rw [htx]
    by_cases hre : reMatchEmail t = true
    · rw [if_pos hre]
      constructor
      · intro h
        exfalso
        split at h
        · rename_i heq
          exact Except.noConfusion heq
        · split at h
          · split at h
            · rcases checkNumericRules_error_shape rules q _ _ h with h3 | h3 <;>
                exact VError.noConfusion h3
            · exact Except.noConfusion h
          · exact Except.noConfusion h
      · intro hno
        exact absurd ((reMatchEmail_iff t).mp hre) hno
    · rw [if_neg hre]
      constructor
      · intro _ hex
        exact hre ((reMatchEmail_iff t).mpr hex)
      · intro _
        rfl
  · intro q rules item hr hp h
    unfold checkQuestion at h
    cases hcr : checkRequired q item with
    | error e =>
        rw [hcr] at h
        injection h with h2
        rw [checkRequired_error_shape q item e hcr] at h2
        exact VError.noConfusion h2
    | ok _ =>
        rw [hcr] at h
        exact checkRules_no_pattern q rules item hr hp q.title h

/-- Witness for `C9_email_pattern`: the text "x" (no '@' at all) fails the
pattern check, in accordance with the characterization. -/
theorem C9_email_pattern_witness :
    checkQuestion
        { id := 1, section_id := some 1, title := "Q1",
          validation_rules := some { pattern := some "email" } }
        (some { question_id := 1, answer_value := none, answer_text := some "x" })
      = .error (.patternMismatch "Q1") ↔
      ¬ ∃ (l m : List Char) (d : Char) (rest : List Char),
          "x".data = l ++ '@' :: (m ++ '.' :: d :: rest) ∧ l ≠ [] ∧
            (∀ c ∈ l, c ≠ '@') ∧ m ≠ [] ∧ (∀ c ∈ m, c ≠ '@') ∧ d ≠ '@' := by
  exact C9_email_pattern.1
    { id := 1, section_id := some 1, title := "Q1",
      validation_rules := some { pattern := some "email" } }
    { pattern := some "email" }
    { question_id := 1, answer_value := none, answer_text := some "x" }
    "x" (by rfl) (by rfl) (by rfl) (by rfl) (by rfl) (by decide)

/-! ## Submit pipeline (`response_service.submit_response` over the
repository operations of `response_repository_impl`) -/

/-- A row of the `responses` table. -/
structure DBResponse where
  id : Nat
  survey_id : Nat
  user_info_hash : Option String := none
  user_info_encrypted : Option String := none
  submitted_at : Option Nat := none
  is_complete : Bool := false
deriving DecidableEq, Repr

/-- A row of the `response_items` table. -/
structure StoredItem where
  response_id : Nat
  question_id : Nat
  answer_value : Option AnsVal
  answer_text : Option String
deriving DecidableEq, Repr

/-- The persistence collaborator's visible state: the `surveys`,
`responses` and `response_items` tables. -/
structure DB where
  surveys : List Survey
  responses : List DBResponse
  response_items : List StoredItem
deriving DecidableEq, Repr

/-- `get_response_by_id` (items not needed by the submit path). -/
def get_response_by_id (db : DB) (rid : Nat) : Option DBResponse :=
  db.responses.find? (fun r => r.id == rid)

/-- `get_survey_by_id`. -/
def get_survey_by_id (db : DB) (sid : Nat) : Option Survey :=
  db.surveys.find? (fun s => s.id == sid)

/-- `check_duplicate_response`: a COMPLETED response of the same survey
with an identical identity hash exists. -/
def check_duplicate_response (db : DB) (sid : Nat) (h : String) : Bool :=
  db.responses.any (fun r =>
    r.survey_id == sid && r.user_info_hash == some h && r.is_complete)

/-- `delete_response_items`: drop all item rows of a response. -/
def delete_response_items (db : DB) (rid : Nat) : DB :=
  { db with response_items := db.response_items.filter (fun it => it.response_id != rid) }

/-- `create_response_items`: append the new rows. -/
def create_response_items (db : DB) (rows : List StoredItem) : DB :=
  { db with response_items := db.response_items ++ rows }

/-- `update_response_items`: delete the old rows, then re-create the new
ones stamped with the response id (the repository's "upsert"). -/
def update_response_items (db : DB) (rid : Nat) (rows : List StoredItem) : DB :=
  create_response_items (delete_response_items db rid)
    (rows.map (fun it => { it with response_id := rid }))

/-- `update_response`: write back the identity/completion fields of the
responses-table row with the matching id. -/
def update_response (db : DB) (r : DBResponse) : DB :=
  { db with responses := db.responses.map (fun r0 =>
      if r0.id == r.id then
        { r0 with user_info_hash := r.user_info_hash,
                  user_info_encrypted := r.user_info_encrypted,
                  submitted_at := r.submitted_at,
                  is_complete := r.is_complete }
      else r0) }

/-- `ResponseSubmitRequest`. -/
structure SubmitRequest where
  user_info : Option String := none
  items : List ItemReq := []
deriving DecidableEq, Repr

/-- The failure gates of `submit_response` before any persistence write
(lines 44-70): response and survey lookup, acceptance check, duplicate
check (when `duplicate_prevention` holds and identity info is truthy),
then item validation; on success it returns the response object with its
identity fields set.  The SHA-256 hash and the base64 encoding are
external primitives passed in as functions. -/
def submit_gate (hash enc : String → String) (db : DB) (response_id : Nat)
    (req : SubmitRequest) : Except VError DBResponse :=
  match get_response_by_id db response_id with
  | none => .error .responseNotFound
  | some response =>
    match get_survey_by_id db response.survey_id with
    | none => .error .surveyNotFound
    | some survey =>
      if !survey.can_accept_responses then .error .surveyNotAcceptingResponses
      else
        match (if survey.duplicate_prevention && truthyStr req.user_info then
                 (if check_duplicate_response db survey.id (hash (req.user_info.getD "")) then
                    .error .duplicateSubmission
                  else
                    .ok { response with
                          user_info_hash := some (hash (req.user_info.getD "")),
                          user_info_encrypted := some (enc (req.user_info.getD "")) })
               else (.ok response : Except VError DBResponse)) with
        | .error e => .error e
        | .ok response1 =>
            match validate_response survey req.items with
            | .error e => .error e
            | .ok _ => .ok response1

/-- The submitted items as `response_items` rows. -/
def requestRows (response_id : Nat) (req : SubmitRequest) : List StoredItem :=
  req.items.map (fun it =>
    { response_id := response_id, question_id := it.question_id,
      answer_value := it.answer_value, answer_text := it.answer_text })

/-- `submit_response` (lines 37-88): after the gates pass, replace the
response's item rows and mark the response complete with the submission
time. -/
def submit_response (hash enc : String → String) (now : Nat) (db : DB)
    (response_id : Nat) (req : SubmitRequest) : Except VError (DB × DBResponse) :=
  match submit_gate hash enc db response_id req with
  | .error e => .error e
  | .ok response1 =>
      let db1 := update_response_items db response1.id (requestRows response1.id req)
      let response2 := { response1 with submitted_at := some now, is_complete := true }
      .ok (update_response db1 response2, response2)

/-- The persistence states a successful submit makes visible, one per
awaited repository write, in order: after deleting the old item rows,
after inserting the new rows, and after the final response update. -/
def submit_response_states (hash enc : String → String) (now : Nat) (db : DB)
    (response_id : Nat) (req : SubmitRequest) : Except VError (List DB) :=
  match submit_gate hash enc db response_id req with
  | .error e => .error e
  | .ok response1 =>
      let d1 := delete_response_items db response1.id
      let d2 := create_response_items d1
        ((requestRows response1.id req).map (fun it => { it with response_id := response1.id }))
      let response2 := { response1 with submitted_at := some now, is_complete := true }
      .ok [d1, d2, update_response d2 response2]

theorem find?_map_preserve (f : DBResponse → DBResponse)
    (hf : ∀ r, (f r).id = r.id) (l : List DBResponse) (rid : Nat) :
    (l.map f).find? (fun r => r.id == rid) = (l.find? (fun r => r.id == rid)).map f := by
  induction l with
  | nil => rfl
  | cons a l' ih =>
      simp only [List.map_cons, List.find?]
      rw [hf a]
      cases h : (a.id == rid) with
      | true => rfl
      | false => simpa using ih

/-- Updating a response row maps the lookup result pointwise. -/
theorem get_response_update_response (db : DB) (x : DBResponse) (rid : Nat) :
    get_response_by_id (update_response db x) rid
      = (get_response_by_id db rid).map (fun r0 =>
          if r0.id == x.id then
            { r0 with user_info_hash := x.user_info_hash,
                      user_info_encrypted := x.user_info_encrypted,
                      submitted_at := x.submitted_at,
                      is_complete := x.is_complete }
          else r0) := by
  unfold get_response_by_id update_response
  exact find?_map_preserve _
    (fun r => by by_cases h : (r.id == x.id) = true <;> simp [h]) _ _

/-- After the final `update_response` of a submit, the duplicate check
finds the just-completed response. -/
theorem check_duplicate_after_update (db : DB) (x : DBResponse) (r : DBResponse)
    (sid : Nat) (h : String) (hmem : r ∈ db.responses) (hid : r.id = x.id)
    (hsv : r.survey_id = sid) (hh : x.user_info_hash = some h)
    (hc : x.is_complete = true) :
    check_duplicate_response (update_response db x) sid h = true := by
  unfold check_duplicate_response update_response
  simp only [List.any_map]
  apply List.any_eq_true.mpr
  refine ⟨r, hmem, ?_⟩
  simp [Function.comp, hid, hsv, hh, hc]

/-- **C3**: `can_accept_responses()` holds iff the survey is published,
and submitting to a survey whose status is not published fails with
`SurveyNotAcceptingResponses` for EVERY request content (so neither the
duplicate check, nor item validation, nor any write can influence or
observe the attempt), and no persistence state is produced. -/
theorem C3_not_accepting :
    (∀ s : Survey, s.can_accept_responses = true ↔ s.status = .published)
  ∧ (∀ (hash enc : String → String) (now : Nat) (db : DB) (rid : Nat)
        (req : SubmitRequest) (r : DBResponse) (s : Survey),
        get_response_by_id db rid = some r →
        get_survey_by_id db r.survey_id = some s →
        s.status ≠ .published →
        submit_response hash enc now db rid req = .error .surveyNotAcceptingResponses
          ∧ submit_response_states hash enc now db rid req
              = .error .surveyNotAcceptingResponses) := by
  constructor
  · intro s
    simp [Survey.can_accept_responses]
  · intro hash enc now db rid req r s hr hs hnp
    have hacc : s.can_accept_responses = false := by
      simp [Survey.can_accept_responses, hnp]
    have hgate : submit_gate hash enc db rid req = .error .surveyNotAcceptingResponses := by
      simp [submit_gate, hr, hs, hacc]
    constructor
    · unfold submit_response
      rw [hgate]
    · unfold submit_response_states
      rw [hgate]

/-- Witness for `C3_not_accepting` on a draft survey. -/
theorem C3_not_accepting_witness :
    submit_response (fun s => s) (fun s => s) 0
        { surveys := [{ id := 5, status := .draft }],
          responses := [{ id := 1, survey_id := 5 }], response_items := [] } 1
        { user_info := none, items := [] }
      = .error .surveyNotAcceptingResponses
    ∧ submit_response_states (fun s => s) (fun s => s) 0
        { surveys := [{ id := 5, status := .draft }],
          responses := [{ id := 1, survey_id := 5 }], response_items := [] } 1
        { user_info := none, items := [] }
      = .error .surveyNotAcceptingResponses :=
  C3_not_accepting.2 (fun s => s) (fun s => s) 0
    { surveys := [{ id := 5, status := .draft }],
      responses := [{ id := 1, survey_id := 5 }], response_items := [] } 1
    { user_info := none, items := [] }
    { id := 1, survey_id := 5 } { id := 5, status := .draft }
    (by rfl) (by rfl) (by decide)

/-- **C10**: the duplicate check precedes validation: on a published
survey with duplicate prevention, identity info whose hash matches a
previously completed response makes the submit fail with
`DuplicateSubmission` for EVERY submitted item list — valid or not — and
no validation error is reported and no persistence state is written. -/
theorem C10_duplicate_before_validation :
    ∀ (hash enc : String → String) (now : Nat) (db : DB) (rid : Nat)
      (req : SubmitRequest) (r : DBResponse) (s : Survey),
      get_response_by_id db rid = some r →
      get_survey_by_id db r.survey_id = some s →
      s.status = .published →
      s.duplicate_prevention = true →
      truthyStr req.user_info = true →
      check_duplicate_response db s.id (hash (req.user_info.getD "")) = true →
      submit_response hash enc now db rid req = .error .duplicateSubmission
        ∧ submit_response_states hash enc now db rid req = .error .duplicateSubmission := by
  intro hash enc now db rid req r s hr hs hpub hdp hui hdup
  have hacc : s.can_accept_responses = true := by
    simp [Survey.can_accept_responses, hpub]
  have hgate : submit_gate hash enc db rid req = .error .duplicateSubmission := by
    simp [submit_gate, hr, hs, hacc, hdp, hui, hdup]
  constructor
  · unfold submit_response
    rw [hgate]
  · unfold submit_response_states
    rw [hgate]

/-- A published survey with one required question and duplicate
prevention enabled, used as a witness instance. -/
def dupSurvey : Survey :=
  { id := 5, status := .published, duplicate_prevention := true,
    sections :=
      [{ id := some 1,
         questions := [{ id := 1, section_id := some 1, title := "Q1", required := true }] }] }

/-- A database in which response 9 has already completed a submission
with identity hash "u" and response 1 has only been started. -/
def dupDB : DB :=
  { surveys := [dupSurvey],
    responses :=
      [{ id := 9, survey_id := 5, user_info_hash := some "u", is_complete := true },
       { id := 1, survey_id := 5 }],
    response_items := [] }

/-- Witness for `C10_duplicate_before_validation`: the submitted items
list is invalid (it omits the required question), yet the reported error
is the duplicate, not the validation failure. -/
theorem C10_duplicate_before_validation_witness :
    submit_response (fun s => s) (fun s => s) 3 dupDB 1
        { user_info := some "u", items := [] }
      = .error .duplicateSubmission
    ∧ submit_response_states (fun s => s) (fun s => s) 3 dupDB 1
        { user_info := some "u", items := [] }
      = .error .duplicateSubmission :=
  C10_duplicate_before_validation (fun s => s) (fun s => s) 3 dupDB 1
    { user_info := some "u", items := [] }
    { id := 1, survey_id := 5 } dupSurvey
    (by rfl) (by rfl) (by rfl) (by rfl) (by rfl) (by rfl)

/-- **C4**: on a published survey with `duplicate_prevention = true`, two
submissions presenting the same identity info (hence, the hash being a
function, identical hashes — the match is equality of the stored hash of
previously COMPLETED responses of the same survey): the first submission
succeeds and the second then fails with `DuplicateSubmission`; with
`duplicate_prevention = false` both submissions succeed. -/
theorem C4_duplicate_prevention :
    (∀ (hash enc : String → String) (t1 t2 : Nat) (db : DB)
        (r1 r2 : DBResponse) (s : Survey) (info : String)
        (req1 req2 : SubmitRequest),
        get_response_by_id db r1.id = some r1 →
        get_response_by_id db r2.id = some r2 →
        r1.survey_id = s.id → r2.survey_id = s.id →
        get_survey_by_id db s.id = some s →
        r1.id ≠ r2.id →
        s.status = .published →
        s.duplicate_prevention = true →
        req1.user_info = some info → req2.user_info = some info → info ≠ "" →
        check_duplicate_response db s.id (hash info) = false →
        validate_response s req1.items = .ok () →
        ∃ db1 resp1,
          submit_response hash enc t1 db r1.id req1 = .ok (db1, resp1) ∧
          submit_response hash enc t2 db1 r2.id req2 = .error .duplicateSubmission)
  ∧ (∀ (hash enc : String → String) (t1 t2 : Nat) (db : DB)
        (r1 r2 : DBResponse) (s : Survey) (req1 req2 : SubmitRequest),
        get_response_by_id db r1.id = some r1 →
        get_response_by_id db r2.id = some r2 →
        r1.survey_id = s.id → r2.survey_id = s.id →
        get_survey_by_id db s.id = some s →
        r1.id ≠ r2.id →
        s.status = .published →
        s.duplicate_prevention = false →
        validate_response s req1.items = .ok () →
        validate_response s req2.items = .ok () →
        ∃ db1 resp1 db2 resp2,
          submit_response hash enc t1 db r1.id req1 = .ok (db1, resp1) ∧
          submit_response hash enc t2 db1 r2.id req2 = .ok (db2, resp2)) := by
  constructor
  · intro hash enc t1 t2 db r1 r2 s info req1 req2 hr1 hr2 hsv1 hsv2 hs hne
      hpub hdp hu1 hu2 hinfo hnodup hval1
    have hacc : s.can_accept_responses = true := by
      simp [Survey.can_accept_responses, hpub]
    have htruthy1 : truthyStr req1.user_info = true := by
      simp [truthyStr, hu1, hinfo]
    have hgetD1 : req1.user_info.getD "" = info := by simp [hu1]
    have hs1 : get_survey_by_id db r1.survey_id = some s := by rw [hsv1]; exact hs
    have hgate1 : submit_gate hash enc db r1.id req1
        = .ok { r1 with user_info_hash := some (hash info),
                        user_info_encrypted := some (enc info) } := by
      simp [submit_gate, hr1, hs1, hacc, hdp, htruthy1, hgetD1, hnodup, hval1]
    have hsub1 : submit_response hash enc t1 db r1.id req1
        = .ok (update_response
                 (update_response_items db r1.id (requestRows r1.id req1))
                 { r1 with user_info_hash := some (hash info),
                           user_info_encrypted := some (enc info),
                           submitted_at := some t1, is_complete := true },
               { r1 with user_info_hash := some (hash info),
                         user_info_encrypted := some (enc info),
                         submitted_at := some t1, is_complete := true }) := by
      unfold submit_response
      rw [hgate1]
    refine ⟨_, _, hsub1, ?_⟩
    have hR2 : get_response_by_id
        (update_response
          (update_response_items db r1.id (requestRows r1.id req1))
          { r1 with user_info_hash := some (hash info),
                    user_info_encrypted := some (enc info),
                    submitted_at := some t1, is_complete := true }) r2.id
        = some r2 := by
      rw [get_response_update_response]
      have hpre : get_response_by_id
          (update_response_items db r1.id (requestRows r1.id req1)) r2.id = some r2 := hr2
      rw [hpre]
      have hbeq : (r2.id == r1.id) = false := by
        simp only [beq_eq_false_iff_ne, ne_eq]
        intro hcontra
        exact hne hcontra.symm
      simp [hbeq]
      intro hcontra
      exact absurd hcontra.symm hne
    have hS2 : get_survey_by_id
        (update_response
          (update_response_items db r1.id (requestRows r1.id req1))
          { r1 with user_info_hash := some (hash info),
                    user_info_encrypted := some (enc info),
                    submitted_at := some t1, is_complete := true }) r2.survey_id
        = some s := by
      rw [hsv2]
      exact hs
    have hdup2 : check_duplicate_response
        (update_response
          (update_response_items db r1.id (requestRows r1.id req1))
          { r1 with user_info_hash := some (hash info),
                    user_info_encrypted := some (enc info),
                    submitted_at := some t1, is_complete := true }) s.id (hash info)
        = true := by
      apply check_duplicate_after_update _ _ r1
      · exact List.mem_of_find?_eq_some hr1
      · rfl
      · exact hsv1
      · rfl
      · rfl
    have htruthy2 : truthyStr req2.user_info = true := by
      simp [truthyStr, hu2, hinfo]
    have hgetD2 : req2.user_info.getD "" = info := by simp [hu2]
    have hgate2 : submit_gate hash enc
        (update_response
          (update_response_items db r1.id (requestRows r1.id req1))
          { r1 with user_info_hash := some (hash info),
                    user_info_encrypted := some (enc info),
                    submitted_at := some t1, is_complete := true }) r2.id req2
        = .error .duplicateSubmission := by
      simp [submit_gate, hR2, hS2, hacc, hdp, htruthy2, hgetD2, hdup2]
    unfold submit_response
    rw [hgate2]
  · intro hash enc t1 t2 db r1 r2 s req1 req2 hr1 hr2 hsv1 hsv2 hs hne
      hpub hdp hval1 hval2
    have hacc : s.can_accept_responses = true := by
      simp [Survey.can_accept_responses, hpub]
    have hs1 : get_survey_by_id db r1.survey_id = some s := by rw [hsv1]; exact hs
    have hgate1 : submit_gate hash enc db r1.id req1 = .ok r1 := by
      simp [submit_gate, hr1, hs1, hacc, hdp, hval1]
    have hsub1 : submit_response hash enc t1 db r1.id req1
        = .ok (update_response
                 (update_response_items db r1.id (requestRows r1.id req1))
                 { r1 with submitted_at := some t1, is_complete := true },
               { r1 with submitted_at := some t1, is_complete := true }) := by
      unfold submit_response
      rw [hgate1]
    have hR2 : get_response_by_id
        (update_response
          (update_response_items db r1.id (requestRows r1.id req1))
          { r1 with submitted_at := some t1, is_complete := true }) r2.id
        = some r2 := by
      rw [get_response_update_response]
      have hpre : get_response_by_id
          (update_response_items db r1.id (requestRows r1.id req1)) r2.id = some r2 := hr2
      rw [hpre]
      have hbeq : (r2.id == r1.id) = false := by
        simp only [beq_eq_false_iff_ne, ne_eq]
        intro hcontra
        exact hne hcontra.symm
      simp [hbeq]
      intro hcontra
      exact absurd hcontra.symm hne
    have hS2 : get_survey_by_id
        (update_response
          (update_response_items db r1.id (requestRows r1.id req1))
          { r1 with submitted_at := some t1, is_complete := true }) r2.survey_id
        = some s := by
      rw [hsv2]
      exact hs
    have hgate2 : submit_gate hash enc
        (update_response
          (update_response_items db r1.id (requestRows r1.id req1))
          { r1 with submitted_at := some t1, is_complete := true }) r2.id req2
        = .ok r2 := by
      simp [submit_gate, hR2, hS2, hacc, hdp, hval2]
    have hsub2 : submit_response hash enc t2
        (update_response (update_response_items db r1.id (requestRows r1.id req1))
          { r1 with submitted_at := some t1, is_complete := true }) r2.id req2
        = .ok (update_response
                 (update_response_items
                   (update_response (update_response_items db r1.id (requestRows r1.id req1))
                     { r1 with submitted_at := some t1, is_complete := true })
                   r2.id (requestRows r2.id req2))
                 { r2 with submitted_at := some t2, is_complete := true },
               { r2 with submitted_at := some t2, is_complete := true }) := by
      unfold submit_response
      rw [hgate2]
    exact ⟨_, _, _, _, hsub1, hsub2⟩

/-- Witness for `C4_duplicate_prevention`: two started responses on a
published duplicate-preventing survey; the first submission with identity
info "u" succeeds and the second with the same info is rejected. -/
theorem C4_duplicate_prevention_witness :
    ∃ db1 resp1,
      submit_response (fun x => x) (fun x => x) 1
          { surveys := [{ id := 5, status := .published, duplicate_prevention := true }],
            responses := [{ id := 1, survey_id := 5 }, { id := 2, survey_id := 5 }],
            response_items := [] } 1 { user_info := some "u", items := [] }
        = .ok (db1, resp1) ∧
      submit_response (fun x => x) (fun x => x) 2 db1 2
          { user_info := some "u", items := [] }
        = .error .duplicateSubmission :=
  C4_duplicate_prevention.1 (fun x => x) (fun x => x) 1 2
    { surveys := [{ id := 5, status := .published, duplicate_prevention := true }],
      responses := [{ id := 1, survey_id := 5 }, { id := 2, survey_id := 5 }],
      response_items := [] }
    { id := 1, survey_id := 5 } { id := 2, survey_id := 5 }
    { id := 5, status := .published, duplicate_prevention := true } "u"
    { user_info := some "u", items := [] } { user_info := some "u", items := [] }
    (by rfl) (by rfl) (by rfl) (by rfl) (by rfl) (by decide) (by rfl) (by rfl)
    (by rfl) (by rfl) (by decide) (by rfl) (by rfl)

/-- **C7**: submission finalization is NOT atomic in the code: the item
rows are replaced (delete + insert) by one repository call and the
completion flag is written by a second, separate call, so a successful
submit passes through an observable intermediate state in which the new
items are stored while the response still has `is_complete = false`. -/
theorem C7_nonatomic_finalization :
    ∃ states, submit_response_states (fun x => x) (fun x => x) 9
        { surveys := [{ id := 5, status := .published }],
          responses := [{ id := 1, survey_id := 5 }],
          response_items := [] } 1
        { user_info := none,
          items := [{ question_id := 3, answer_value := some (.scalar (.num 2)),
                      answer_text := none }] }
      = .ok states
      ∧ ∃ mid ∈ states,
          mid.response_items.filter (fun it => it.response_id == 1)
            = [{ response_id := 1, question_id := 3,
                 answer_value := some (.scalar (.num 2)), answer_text := none }]
          ∧ (get_response_by_id mid 1).map DBResponse.is_complete = some false := by
  refine ⟨_, rfl, ?_⟩
  decide

/-! ## CSV export (`response_service.generate_csv`)

The Python `csv.writer` default dialect is modelled explicitly: a field is
quoted iff it contains the delimiter, the quote character or a CR/LF;
inner quotes are doubled; records end with CRLF. `json.dumps(...,
ensure_ascii=False)` is modelled for the row-keyed mappings that can
appear in `answer_value`. -/

/-- Lower-case hexadecimal digit. -/
def hexDigit (n : Nat) : Char :=
  if n < 10 then Char.ofNat (48 + n) else Char.ofNat (87 + n)

/-- JSON string-character escaping as `json.dumps` does it. -/
def jsonEscapeChar (c : Char) : String :=
  if c = '"' then "\\\""
  else if c = '\\' then "\\\\"
  else if c = '\n' then "\\n"
  else if c = '\r' then "\\r"
  else if c = '\t' then "\\t"
  else if c.toNat < 32 then
    "\\u00" ++ String.singleton (hexDigit (c.toNat / 16))
      ++ String.singleton (hexDigit (c.toNat % 16))
  else String.singleton c

/-- JSON escaping of a whole string. -/
def jsonEscape (s : String) : String := String.join (s.data.map jsonEscapeChar)

/-- A JSON string literal. -/
def jsonStr (s : String) : String := "\"" ++ jsonEscape s ++ "\""

/-- JSON form of a scalar value. -/
def jsonScalar : Scalar → String
  | .str s => jsonStr s
  | .num n => toString n
  | .bool b => if b then "true" else "false"

/-- `json.dumps(mapping, ensure_ascii=False)` with the default `", "` and
`": "` separators. -/
def jsonDumps (kvs : List (String × Scalar)) : String :=
  "\x7b" ++ String.intercalate ", "
      (kvs.map (fun kv => jsonStr kv.1 ++ ": " ++ jsonScalar kv.2))
    ++ "\x7d"

/-- `item_map = {str(item.question_id): item}` over a response's items:
the last item wins for a duplicated question id. -/
def itemMapR (items : List ResponseItem) (qid : Nat) : Option ResponseItem :=
  (items.filter (fun it => it.question_id == qid)).getLast?

/-- One cell of the export (lines 198-212): non-empty `answer_text`
verbatim; else a sequence joined with ", "; else a mapping as JSON; else
the string form of a present scalar; else empty. -/
def csvCell : Option ResponseItem → String
  | none => ""
  | some item =>
      if truthyStr item.answer_text then item.answer_text.getD ""
      else
        match item.answer_value with
        | none => ""
        | some (.list vs) => String.intercalate ", " (vs.map pyStrScalar)
        | some (.dict kvs) => jsonDumps kvs
        | some (.scalar v) => pyStrScalar v

/-- The non-hidden questions in flattened section/question order. -/
def visibleQuestions (survey : Survey) : List Question :=
  survey.sections.flatMap (fun sec => sec.questions.filter (fun q => !q.is_hidden))

/-- A header cell: `"{number}. {title}"`, or the bare title when the
numbering function returned the (falsy) empty string. -/
def headerTitle (survey : Survey) (q : Question) : String :=
  if get_question_number survey q ≠ "" then
    get_question_number survey q ++ ". " ++ q.title
  else q.title

/-- Does a field need quoting under the default csv dialect? -/
def csvQuoteNeeded (s : String) : Bool :=
  s.data.any (fun c => c == ',' || c == '"' || c == '\n' || c == '\r')

/-- Double every quote character. -/
def csvEscapeQuotes : List Char → List Char
  | [] => []
  | c :: rest =>
      if c = '"' then '"' :: '"' :: csvEscapeQuotes rest
      else c :: csvEscapeQuotes rest

/-- Encode one field, quoting only when needed (QUOTE_MINIMAL). -/
def csvField (s : String) : String :=
  if csvQuoteNeeded s then "\"" ++ String.mk (csvEscapeQuotes s.data) ++ "\"" else s

/-- A record's fields joined with the comma delimiter. -/
def csvLine : List String → String
  | [] => ""
  | [f] => csvField f
  | f :: fs => csvField f ++ "," ++ csvLine fs

/-- One written record: the joined fields plus the CRLF terminator. -/
def csvRecord (fields : List String) : String := csvLine fields ++ "\r\n"

/-- The header row. -/
def csvHeader (survey : Survey) : List String :=
  "응답 ID" :: "제출 시간" :: (visibleQuestions survey).map (headerTitle survey)

/-- One data row: response id, submitted time (empty when absent), then
one cell per visible question. -/
def csvRow (survey : Survey) (r : Response) : List String :=
  toString r.id
    :: (match r.submitted_at with | some n => toString n | none => "")
    :: (visibleQuestions survey).map (fun q => csvCell (itemMapR r.items q.id))

/-- `generate_csv` (lines 164-217): build the non-hidden question list by
the nested section/question loops, write the header record and one record
per response into the output buffer, and prepend the BOM. -/
def generate_csv (survey : Survey) (responses : List Response) : String :=
  let questions := survey.sections.foldl (fun acc sec =>
    sec.questions.foldl (fun acc q => if !q.is_hidden then acc ++ [q] else acc) acc) []
  let headers := "응답 ID" :: "제출 시간" :: questions.map (headerTitle survey)
  let rows := responses.map (fun r =>
    toString r.id
      :: (match r.submitted_at with | some n => toString n | none => "")
      :: questions.map (fun q => csvCell (itemMapR r.items q.id)))
  "\uFEFF" ++ (headers :: rows).foldl (fun acc row => acc ++ csvRecord row) ""

/-- UTF-8 encoding of one character, bytes as naturals. -/
def encChar (c : Char) : List Nat :=
  let n := c.toNat
  if n < 0x80 then [n]
  else if n < 0x800 then [0xC0 + n / 64, 0x80 + n % 64]
  else if n < 0x10000 then
    [0xE0 + n / 4096, 0x80 + (n / 64) % 64, 0x80 + n % 64]
  else
    [0xF0 + n / 262144, 0x80 + (n / 4096) % 64, 0x80 + (n / 64) % 64, 0x80 + n % 64]

/-- UTF-8 encoding of a string. -/
def utf8Bytes (s : String) : List Nat := s.data.flatMap encChar

/-- A standard csv reader's quoted-field scanner: consume until the
closing quote, reading a doubled quote as a literal one; returns the
field content and the remaining input. -/
def parseQuoted : List Char → List Char × List Char
  | [] => ([], [])
  | c :: rest =>
      if c = '"' then
        match rest with
        | d :: rest2 =>
            if d = '"' then
              let p := parseQuoted rest2
              ('"' :: p.1, p.2)
            else ([], rest)
        | [] => ([], [])
      else
        let p := parseQuoted rest
        (c :: p.1, p.2)

theorem parseQuoted_length_aux (n : Nat) :
    ∀ cs : List Char, cs.length ≤ n → (parseQuoted cs).2.length ≤ cs.length := by
  induction n with
  | zero =>
      intro cs h
      cases cs with
      | nil => simp [parseQuoted]
      | cons c rest => simp at h
  | succ n ih =>
      intro cs h
      match cs with
      | [] => simp [parseQuoted]
      | c :: rest =>
          by_cases hc : c = '"'
          · subst hc
            match rest with
            | [] => simp [parseQuoted]
            | d :: rest2 =>
                by_cases hd : d = '"'
                · subst hd
                  have hred : (parseQuoted ('"' :: '"' :: rest2)).2
                      = (parseQuoted rest2).2 := rfl
                  have h2 := ih rest2 (by simp at h; omega)
                  rw [hred]
                  simp only [List.length_cons]
                  omega
                · have hred : (parseQuoted ('"' :: d :: rest2)).2 = d :: rest2 := by
                    simp [parseQuoted, hd]
                  rw [hred]
                  simp only [List.length_cons]
                  omega
          · have hred : (parseQuoted (c :: rest)).2 = (parseQuoted rest).2 := by
              rw [parseQuoted.eq_def]
              simp [hc]
            have h2 := ih rest (by simp at h; omega)
            rw [hred]
            simp only [List.length_cons]
            omega

theorem parseQuoted_length (cs : List Char) :
    (parseQuoted cs).2.length ≤ cs.length :=
  parseQuoted_length_aux cs.length cs (Nat.le_refl _)

theorem dropWhile_length_le (p : Char → Bool) (l : List Char) :
    (l.dropWhile p).length ≤ l.length := by
  induction l with
  | nil => simp
  | cons c rest ih =>
      by_cases h : p c = true
      · simp [List.dropWhile, h]
        omega
      · simp [List.dropWhile, h]

mutual

/-- A standard csv reader for one record: split on unquoted commas,
reading quoted fields with `parseQuoted`. -/
def parseRecFields (cs : List Char) : List String :=
  match cs with
  | [] => [""]
  | c :: rest =>
      if c = '"' then
        parseCont (parseQuoted rest).1 (parseQuoted rest).2
      else
        parseCont ((c :: rest).takeWhile (fun x => x != ','))
          ((c :: rest).dropWhile (fun x => x != ','))
termination_by (cs.length, 1)
decreasing_by
  · have h := parseQuoted_length rest
    apply Prod.Lex.left
    simp only [List.length_cons]
    omega
  · have h := dropWhile_length_le (fun x => x != ',') (c :: rest)
    by_cases hlt : (List.dropWhile (fun x => x != ',') (c :: rest)).length
        < (c :: rest).length
    · exact Prod.Lex.left _ _ hlt
    · have heq : (List.dropWhile (fun x => x != ',') (c :: rest)).length
          = (c :: rest).length := by omega
      rw [heq]
      exact Prod.Lex.right _ Nat.zero_lt_one

/-- Resume after one field has been read: a comma starts the next field,
anything else ends the record. -/
def parseCont (field : List Char) (rem : List Char) : List String :=
  match rem with
  | ',' :: r2 => String.mk field :: parseRecFields r2
  | _ => [String.mk field]
termination_by (rem.length, 0)
decreasing_by
  · apply Prod.Lex.left
    simp

end

/-- Parse one csv record (without interpreting a record terminator). -/
def parseRecord (s : String) : List String := parseRecFields s.data

theorem parseQuoted_escape (s : List Char) (rest : List Char)
    (hrest : ∀ d rest', rest = d :: rest' → d ≠ '"') :
    parseQuoted (csvEscapeQuotes s ++ '"' :: rest) = (s, rest) := by
  induction s with
  | nil =>
      cases rest with
      | nil => rfl
      | cons d rest' =>
          have hd : d ≠ '"' := hrest d rest' rfl
          simp [csvEscapeQuotes, parseQuoted, hd]
  | cons c s' ih =>
      by_cases hc : c = '"'
      · subst hc
        have hesc : csvEscapeQuotes ('"' :: s') ++ '"' :: rest
            = '"' :: '"' :: (csvEscapeQuotes s' ++ '"' :: rest) := by
          simp [csvEscapeQuotes]
        rw [hesc]
        have hred : parseQuoted ('"' :: '"' :: (csvEscapeQuotes s' ++ '"' :: rest))
            = ('"' :: (parseQuoted (csvEscapeQuotes s' ++ '"' :: rest)).1,
               (parseQuoted (csvEscapeQuotes s' ++ '"' :: rest)).2) := rfl
        rw [hred, ih]
      · have hesc : csvEscapeQuotes (c :: s') ++ '"' :: rest
            = c :: (csvEscapeQuotes s' ++ '"' :: rest) := by
          simp [csvEscapeQuotes, hc]
        rw [hesc]
        have hred : parseQuoted (c :: (csvEscapeQuotes s' ++ '"' :: rest))
            = (c :: (parseQuoted (csvEscapeQuotes s' ++ '"' :: rest)).1,
               (parseQuoted (csvEscapeQuotes s' ++ '"' :: rest)).2) := by
          rw [parseQuoted.eq_def]
          simp [hc]
        rw [hred, ih]

theorem takeWhile_append_all (p : Char → Bool) (l l' : List Char)
    (h : ∀ x ∈ l, p x = true) :
    (l ++ l').takeWhile p = l ++ l'.takeWhile p := by
  induction l with
  | nil => simp
  | cons c rest ih =>
      have hc : p c = true := h c (List.mem_cons_self c rest)
      simp only [List.cons_append, List.takeWhile_cons, hc]
      rw [ih (fun x hx => h x (List.mem_cons_of_mem c hx))]
      simp

theorem dropWhile_append_all (p : Char → Bool) (l l' : List Char)
    (h : ∀ x ∈ l, p x = true) :
    (l ++ l').dropWhile p = l'.dropWhile p := by
  induction l with
  | nil => simp
  | cons c rest ih =>
      have hc : p c = true := h c (List.mem_cons_self c rest)
      simp only [List.cons_append, List.dropWhile_cons, hc]
      exact ih (fun x hx => h x (List.mem_cons_of_mem c hx))


theorem parseRecFields_quoted_last (l : List Char) :
    parseRecFields ('"' :: (csvEscapeQuotes l ++ ['"'])) = [String.mk l] := by
  have hpq : parseQuoted (csvEscapeQuotes l ++ '"' :: []) = (l, []) :=
    parseQuoted_escape l [] (by intro d r' hcontra; exact absurd hcontra (by simp))
  simp [parseRecFields, hpq, parseCont]

theorem parseRecFields_quoted (l tail : List Char) :
    parseRecFields ('"' :: (csvEscapeQuotes l ++ '"' :: ',' :: tail))
      = String.mk l :: parseRecFields tail := by
  have hpq : parseQuoted (csvEscapeQuotes l ++ '"' :: ',' :: tail) = (l, ',' :: tail) :=
    parseQuoted_escape l (',' :: tail)
      (by
        intro d r' hcontra
        injection hcontra with h1 h2
        rw [← h1]
        decide)
  simp [parseRecFields, hpq, parseCont]

theorem parseRecFields_raw (l tail : List Char)
    (hl : ∀ x ∈ l, (x != ',') = true ∧ x ≠ '"') :
    parseRecFields (l ++ ',' :: tail) = String.mk l :: parseRecFields tail := by
  cases l with
  | nil => simp [parseRecFields, parseCont, List.takeWhile_cons, List.dropWhile_cons]
  | cons c rest =>
      have hcq : c ≠ '"' := (hl c (by simp)).2
      have h1 : List.takeWhile (fun x => x != ',') (c :: (rest ++ ',' :: tail))
          = (c :: rest) ++ List.takeWhile (fun x => x != ',') (',' :: tail) := by
        have := takeWhile_append_all (fun x => x != ',') (c :: rest) (',' :: tail)
          (fun x hx => (hl x hx).1)
        simpa using this
      have h2 : List.dropWhile (fun x => x != ',') (c :: (rest ++ ',' :: tail))
          = List.dropWhile (fun x => x != ',') (',' :: tail) := by
        have := dropWhile_append_all (fun x => x != ',') (c :: rest) (',' :: tail)
          (fun x hx => (hl x hx).1)
        simpa using this
      have h3 : List.takeWhile (fun x => x != ',') (',' :: tail) = [] := by
        simp [List.takeWhile_cons]
      have h4 : List.dropWhile (fun x => x != ',') (',' :: tail) = ',' :: tail := by
        simp [List.dropWhile_cons]
      show parseRecFields (c :: (rest ++ ',' :: tail)) = _
      simp [parseRecFields, hcq, h1, h2, h3, h4, parseCont]

theorem parseRecFields_raw_last (l : List Char)
    (hl : ∀ x ∈ l, (x != ',') = true ∧ x ≠ '"') :
    parseRecFields l = [String.mk l] := by
  cases l with
  | nil => simp [parseRecFields]
  | cons c rest =>
      have hcq : c ≠ '"' := (hl c (by simp)).2
      have h1 : List.takeWhile (fun x => x != ',') (c :: rest) = c :: rest := by
        have := takeWhile_append_all (fun x => x != ',') (c :: rest) []
          (fun x hx => (hl x hx).1)
        simpa using this
      have h2 : List.dropWhile (fun x => x != ',') (c :: rest) = [] := by
        have := dropWhile_append_all (fun x => x != ',') (c :: rest) []
          (fun x hx => (hl x hx).1)
        simpa using this
      simp [parseRecFields, hcq, h1, h2, parseCont]

theorem csvQuoteNeeded_false_all (f : String) (h : csvQuoteNeeded f = false) :
    ∀ x ∈ f.data, (x != ',') = true ∧ x ≠ '"' := by
  intro x hx
  unfold csvQuoteNeeded at h
  rw [List.any_eq_false] at h
  have hx2 := h x hx
  simp only [Bool.or_eq_true, beq_iff_eq, not_or] at hx2
  obtain ⟨⟨⟨h1, h2⟩, h3⟩, h4⟩ := hx2
  exact ⟨by simp [h1], h2⟩

/-- Round trip: a standard csv parser applied to a record written by the
writer recovers the original fields exactly. -/
theorem parse_csvLine (fields : List String) (hne : fields ≠ []) :
    parseRecord (csvLine fields) = fields := by
  induction fields with
  | nil => exact absurd rfl hne
  | cons f fs ih =>
      cases fs with
      | nil =>
          show parseRecFields (csvLine [f]).data = [f]
          by_cases hq : csvQuoteNeeded f = true
          · have hdata : (csvLine [f]).data
                = '"' :: (csvEscapeQuotes f.data ++ ['"']) := by
              show (csvField f).data = _
              simp [csvField, hq, String.data_append]
            rw [hdata, parseRecFields_quoted_last]
          · have hl : ∀ x ∈ f.data, (x != ',') = true ∧ x ≠ '"' :=
              csvQuoteNeeded_false_all f (by simpa using hq)
            have hdata : (csvLine [f]).data = f.data := by
              show (csvField f).data = f.data
              simp [csvField, hq]
            rw [hdata, parseRecFields_raw_last f.data hl]
      | cons f2 fs' =>
          have ihv : parseRecFields (csvLine (f2 :: fs')).data = f2 :: fs' :=
            ih (by simp)
          by_cases hq : csvQuoteNeeded f = true
          · have hdata : (csvLine (f :: f2 :: fs')).data
                = '"' :: (csvEscapeQuotes f.data
                    ++ '"' :: ',' :: (csvLine (f2 :: fs')).data) := by
              show (csvField f ++ "," ++ csvLine (f2 :: fs')).data = _
              simp [csvField, hq, String.data_append]
            show parseRecFields (csvLine (f :: f2 :: fs')).data = _
            rw [hdata, parseRecFields_quoted, ihv]
          · have hl : ∀ x ∈ f.data, (x != ',') = true ∧ x ≠ '"' :=
              csvQuoteNeeded_false_all f (by simpa using hq)
            have hdata : (csvLine (f :: f2 :: fs')).data
                = f.data ++ ',' :: (csvLine (f2 :: fs')).data := by
              show (csvField f ++ "," ++ csvLine (f2 :: fs')).data = _
              simp [csvField, hq, String.data_append]
            show parseRecFields (csvLine (f :: f2 :: fs')).data = _
            rw [hdata, parseRecFields_raw f.data _ hl, ihv]

/-- Concatenation of a list of strings. -/
def joinAll : List String → String
  | [] => ""
  | s :: rest => s ++ joinAll rest

theorem foldl_append_join (rows : List (List String)) (acc : String) :
    rows.foldl (fun a row => a ++ csvRecord row) acc
      = acc ++ joinAll (rows.map csvRecord) := by
  induction rows generalizing acc with
  | nil => simp [joinAll]
  | cons r rest ih =>
      simp only [List.foldl_cons, List.map_cons, joinAll]
      rw [ih, String.append_assoc]

theorem qfold_eq (qs : List Question) (acc : List Question) :
    qs.foldl (fun acc q => if !q.is_hidden then acc ++ [q] else acc) acc
      = acc ++ qs.filter (fun q => !q.is_hidden) := by
  induction qs generalizing acc with
  | nil => simp
  | cons q rest ih =>
      simp only [List.foldl_cons, List.filter_cons]
      by_cases hq : (!q.is_hidden) = true
      · rw [if_pos hq, if_pos hq, ih]
        simp
      · rw [if_neg hq, if_neg hq, ih]

theorem questions_foldl_eq (secs : List Section) (acc : List Question) :
    secs.foldl (fun acc sec => sec.questions.foldl
        (fun acc q => if !q.is_hidden then acc ++ [q] else acc) acc) acc
      = acc ++ secs.flatMap (fun sec => sec.questions.filter (fun q => !q.is_hidden)) := by
  induction secs generalizing acc with
  | nil => simp
  | cons sec rest ih =>
      simp only [List.foldl_cons, List.flatMap_cons]
      rw [qfold_eq, ih]
      simp

/-- The imperative buffer construction of `generate_csv` equals the
declarative record list: BOM, then the header record, then one record per
response, each cell given by `csvCell` over the visible questions. -/
theorem generate_csv_eq (survey : Survey) (responses : List Response) :
    generate_csv survey responses
      = "\uFEFF" ++ joinAll
          ((csvHeader survey :: responses.map (csvRow survey)).map csvRecord) := by
  unfold generate_csv
  dsimp only
  rw [questions_foldl_eq, foldl_append_join]
  simp only [List.nil_append]
  rfl

theorem utf8Bytes_append (a b : String) :
    utf8Bytes (a ++ b) = utf8Bytes a ++ utf8Bytes b := by
  unfold utf8Bytes
  rw [String.data_append, List.flatMap_append]

/-- **C6**: the delimited-text export is the UTF-8 encoding of a
byte-order-marker followed by one header record (response id, submitted
time, one column per non-hidden question in flattened section/question
order) and one record per response; each question cell is the item's
non-empty `answer_text` verbatim, else a sequence joined with ", ", else
a mapping as JSON text, else the string form of a present scalar, else
empty; and fields are quoted so that a standard comma-separated parser
re-parsing a written record recovers the original fields exactly. -/
theorem C6_csv_export :
    (∀ (survey : Survey) (responses : List Response),
        generate_csv survey responses
          = "\uFEFF" ++ joinAll
              ((csvHeader survey :: responses.map (csvRow survey)).map csvRecord))
  ∧ (∀ (survey : Survey) (responses : List Response),
        utf8Bytes (generate_csv survey responses)
          = 0xEF :: 0xBB :: 0xBF :: utf8Bytes
              (joinAll ((csvHeader survey :: responses.map (csvRow survey)).map csvRecord)))
  ∧ (∀ item : ResponseItem,
        (csvCell none = "")
        ∧ (truthyStr item.answer_text = true →
            csvCell (some item) = item.answer_text.getD "")
        ∧ (truthyStr item.answer_text = false →
            ((∀ vs, item.answer_value = some (.list vs) →
                csvCell (some item) = String.intercalate ", " (vs.map pyStrScalar))
            ∧ (∀ kvs, item.answer_value = some (.dict kvs) →
                csvCell (some item) = jsonDumps kvs)
            ∧ (∀ v, item.answer_value = some (.scalar v) →
                csvCell (some item) = pyStrScalar v)
            ∧ (item.answer_value = none → csvCell (some item) = ""))))
  ∧ (∀ fields : List String, fields ≠ [] → parseRecord (csvLine fields) = fields) := by
  refine ⟨generate_csv_eq, ?_, ?_, parse_csvLine⟩
  · intro survey responses
    rw [generate_csv_eq, utf8Bytes_append]
    have hbom : utf8Bytes "\uFEFF" = [0xEF, 0xBB, 0xBF] := by decide
    rw [hbom]
    rfl
  · intro item
    refine ⟨rfl, ?_, ?_⟩
    · intro h
      simp [csvCell, h]
    · intro h
      refine ⟨?_, ?_, ?_, ?_⟩
      · intro vs hv
        simp [csvCell, h, hv]
      · intro kvs hv
        simp [csvCell, h, hv]
      · intro v hv
        simp [csvCell, h, hv]
      · intro hv
        simp [csvCell, h, hv]

/-- Witness for `C6_csv_export`: a record whose fields contain a comma
and a quote survives the write/parse round trip. -/
theorem C6_csv_export_witness :
    parseRecord (csvLine ["val,with", "quo\"te"]) = ["val,with", "quo\"te"] :=
  C6_csv_export.2.2.2 ["val,with", "quo\"te"] (by decide)
